import Mathlib

/-!
# The script interpreter of `script/runtime/cmds.go`

A shallow embedding of the command handlers of the scripted-test interpreter
(`cmdExec`, `cmdCall`, `cmdHttp`, `cmdCd`, ..., `scriptMatch`) together with
theorems about them.

* Go strings are Lean strings; byte slicing such as `s[1:]` is only ever
  applied behind an ASCII test, so it is slicing of the character list.
* `ts.Fatalf`, `ts.Check` with a non-nil error, a Go runtime panic and
  `ts.t.Skip` all stop the handler: a handler returns an `Outcome`, either
  `done` with the final script state or `abort` with the reason and the
  state at the point of the abort.
* The operating system, the Go standard library (`os`, `filepath`,
  `regexp`) and the registered function tables are outside the repository:
  they are collected in the interface `OS`, a parameter of every handler.
-/

namespace HofScript

/-! ## Go values -/

/-- A non-nil Go `error`, rendered as its `%v` text. -/
abbrev Error := String

/-- Go `strings.HasPrefix(s, p)`. -/
def startsWith (s p : String) : Bool := p.data.isPrefixOf s.data

/-- Go slice `s[n:]` for an `n` that lies on a character boundary. -/
def dropBytes (s : String) (n : Nat) : String := ⟨s.data.drop n⟩

/-- Go `%q` of a string without characters that need escaping. -/
def quote (s : String) : String := "\"" ++ s ++ "\""

/-- Go `%#q` of a string that can be written between backquotes. -/
def backquote (s : String) : String := "`" ++ s ++ "`"

/-- Value of a decimal digit character. -/
def digitVal (c : Char) : Option Nat :=
  if '0' ≤ c ∧ c ≤ '9' then some (c.toNat - 48) else none

/-- Reads a run of digits of the given base, most significant first. -/
def parseDigits (base : Nat) : List Char → Nat → Option Nat
  | [], acc => some acc
  | c :: cs, acc =>
    match digitVal c with
    | some d => if d < base then parseDigits base cs (acc * base + d) else none
    | none => none

/-- Go `strconv.ParseInt(s, base, bitSize)` for `2 ≤ base ≤ 10`: an optional
sign, at least one digit, and a range check for the bit size. -/
def ParseInt (fn s : String) (base bitSize : Nat) : Except Error Int :=
  let signed : Bool × List Char :=
    match s.data with
    | '-' :: r => (true, r)
    | '+' :: r => (false, r)
    | r => (false, r)
  if signed.2 = [] then
    .error ("strconv." ++ fn ++ ": parsing " ++ quote s ++ ": invalid syntax")
  else
    match parseDigits base signed.2 0 with
    | none => .error ("strconv." ++ fn ++ ": parsing " ++ quote s ++ ": invalid syntax")
    | some v =>
      let i : Int := if signed.1 then -(v : Int) else (v : Int)
      if -(2 : Int) ^ (bitSize - 1) ≤ i ∧ i < (2 : Int) ^ (bitSize - 1) then .ok i
      else .error ("strconv." ++ fn ++ ": parsing " ++ quote s ++ ": value out of range")

/-- Go `strconv.Atoi(s)` on a 64-bit platform. -/
def Atoi (s : String) : Except Error Int := ParseInt "Atoi" s 10 64

/-- Go `os.FileMode(mode)`: conversion of an integer to `uint32`. -/
def FileMode (mode : Int) : Nat := (mode % (2 : Int) ^ 32).toNat

/-- Go `%.3o`: octal with at least three digits. -/
def octal3 (n : Int) : String :=
  let ds := Nat.toDigits 8 n.toNat
  (if n < 0 then "-" else "") ++ String.mk (List.replicate (3 - ds.length) '0' ++ ds)

/-! ## The regexp package -/

/-- A compiled Go regular expression, seen through the four methods the
interpreter calls. `findAll text` is the list of successive non-overlapping
matches of the expression in `text` (what `FindAllString(text, -1)` returns),
`replaceAll text repl` is `ReplaceAllString(text, repl)`. -/
structure Regexp where
  findAll : String → List String
  replaceAll : String → String → String

/-- Go `re.MatchString(text)`: the expression has a match in `text`. -/
def Regexp.MatchString (re : Regexp) (text : String) : Bool := !(re.findAll text).isEmpty

/-- Go `re.FindString(text)`: the leftmost match, or the empty string. -/
def Regexp.FindString (re : Regexp) (text : String) : String := (re.findAll text).headD ""

/-- Go `re.FindAllString(text, n)`: all matches when `n < 0`, otherwise at
most `n` of them. -/
def Regexp.FindAllString (re : Regexp) (text : String) (n : Int) : List String :=
  if n < 0 then re.findAll text else (re.findAll text).take n.toNat

/-- Go `re.ReplaceAllString(text, repl)`. -/
def Regexp.ReplaceAllString (re : Regexp) (text repl : String) : String := re.replaceAll text repl

/-! ## Processes and the file system -/

/-- What `os.Stat` reports about a file. -/
structure FileInfo where
  isDir : Bool
  mode : Nat
  deriving DecidableEq, Repr

/-- Result of `os.Stat`, with `os.IsNotExist(err)` already decided. -/
inductive StatResult where
  | ok (info : FileInfo)
  | notExist (err : Error)
  | failed (err : Error)
  deriving DecidableEq, Repr

/-- A request to run a program (or a registered function): working directory,
environment and standard input of the script, then the command line. -/
structure ExecReq where
  dir : String
  env : List String
  stdin : String
  command : String
  args : List String
  deriving DecidableEq, Repr

/-- What a finished foreground run returns: the two captured streams, the
exit code of the process and the Go error (`none` is `nil`). -/
structure ProcResult where
  stdout : String
  stderr : String
  exitCode : Int
  err : Option Error
  deriving DecidableEq, Repr

/-- A started process (`*exec.Cmd`): `path :: args` is `cmd.Args`. -/
structure Cmd where
  pid : Nat
  path : String
  args : List String
  deriving DecidableEq, Repr

/-- What is read from a background command once its completion signal has
fired: its private stdout and stderr builders and its `ProcessState`. -/
structure ProcState where
  stdout : String
  stderr : String
  success : Bool
  exitCode : Int
  text : String
  deriving DecidableEq, Repr

/-- The element type of `ts.background`: `backgroundCmd{cmd, wait, neg}`.
The channel `wait` is represented by `OS.wait`, which blocks on it. -/
structure backgroundCmd where
  cmd : Cmd
  neg : Int
  deriving DecidableEq, Repr

/-- How far the monitor goroutine of a background command (lines 310-315:
`werr := ctxWait(ts.ctxt, cmd)`, `close(wait)`, `ts.status = ...ExitCode()`,
`err = werr`) has got at a given point of the control thread: the process has
not exited yet, or the exit code has been stored in `ts.status`, or the
goroutine has run to its end and has also assigned `err`. -/
inductive MonitorProgress where
  | pending
  | wroteStatus (exitCode : Int)
  | finished (exitCode : Int) (werr : Option Error)
  deriving DecidableEq, Repr

/-- Go maps with string keys, as association lists. -/
abbrev GoMap := List (String × String)

/-- Map read `m[k]` with the comma-ok form. -/
def GoMap.get (m : GoMap) (k : String) : Option String := (m.find? (fun kv => kv.1 == k)).map (·.2)

/-- Map write `m[k] = v`. -/
def GoMap.set (m : GoMap) (k v : String) : GoMap := (k, v) :: m.filter (fun kv => !(kv.1 == k))

/-- The script state `Script` (`ts`). `world` stands for everything outside
the Go heap that the handlers act on: the file system, the process table and
the clock behind `ts.ctxt`. -/
structure Script (W : Type) where
  cd : String
  env : List String
  envMap : GoMap
  stdin : String
  stdout : String
  stderr : String
  status : Int
  background : List backgroundCmd
  log : String
  stopped : Bool
  updateScripts : Bool
  scriptFiles : GoMap
  scriptUpdates : GoMap
  world : W
  deriving DecidableEq, Repr

/-- The calls that leave the repository: `path/filepath`, `os`, `io/ioutil`,
`regexp`, process control, the deadline, and the tables and helpers supplied
by other packages. `monitorProgress w cmd` is the scheduler's part: how far
the monitor goroutine of the command just launched has got when the line that
launched it reads `err` in its closing block (line 332). -/
structure OS (W : Type) where
  IsAbs : String → Bool
  Join : String → String → String
  Base : String → String
  Stat : W → String → StatResult
  ReadFile : W → String → Except Error String
  Chmod : W → String → Nat → W × Option Error
  MkdirAll : W → String → Nat → W × Option Error
  RemoveAll : W → String → W × Option Error
  forceWritable : W → String → W
  Symlink : W → String → String → W × Option Error
  Compile : String → Except Error Regexp
  run : W → ExecReq → W × ProcResult
  start : W → ExecReq → W × Except Error Cmd
  wait : W → Cmd → W × ProcState
  interruptProcess : W → Cmd → W
  call : W → ExecReq → W × ProcResult
  http : W → ExecReq → W × ProcResult
  expired : W → Bool
  expand : GoMap → String → String
  Diff : String → String → String
  envvarname : String → String
  monitorProgress : W → Cmd → MonitorProgress

/-- Why a handler stopped before its end. -/
inductive Abort where
  | fatal (msg : String)
  | check (err : Error)
  | panic (msg : String)
  | skip (msg : Option String)
  deriving DecidableEq, Repr

/-- Result of running one handler. -/
inductive Outcome (W : Type) where
  | done (ts : Script W)
  | abort (why : Abort) (ts : Script W)
  deriving DecidableEq, Repr

/-- The handler returned normally. -/
def Outcome.completes {W : Type} : Outcome W → Bool
  | .done _ => true
  | .abort _ _ => false

/-- The handler stopped in `ts.Fatalf` or in a failing `ts.Check`. -/
def Outcome.fails {W : Type} : Outcome W → Bool
  | .abort (.fatal _) _ => true
  | .abort (.check _) _ => true
  | _ => false

/-- The script state when the handler returned or stopped. -/
def Outcome.state {W : Type} : Outcome W → Script W
  | .done ts => ts
  | .abort _ ts => ts

variable {W : Type}

/-! ## Helpers of `Script` -/

/-- `fmt.Fprintf(&ts.log, ...)` and `ts.Logf(...)` with the formatted text. -/
def Script.Logf (ts : Script W) (text : String) : Script W := { ts with log := ts.log ++ text }

/-- Modelled from the spec: `ts.MkAbs` is not among the sources; "any
absolute path is used as-is, any relative path is resolved against the
sandbox's current directory". -/
def Script.MkAbs (os : OS W) (ts : Script W) (file : String) : String :=
  if os.IsAbs file then file else os.Join ts.cd file

/-- Modelled from the spec: `ts.ReadFile` is not among the sources; a source
named `stdout` or `stderr` is the capture buffer, anything else is a file
path whose content is read (a read error stops the script). -/
def Script.ReadFile (os : OS W) (ts : Script W) (file : String) : Except Error String :=
  if file = "stdout" then .ok ts.stdout
  else if file = "stderr" then .ok ts.stderr
  else os.ReadFile ts.world (ts.MkAbs os file)

/-- Modelled from the spec: `ts.Setenv` is not among the sources; the
environment is "an ordered list of `K=V` entries plus a case-folded lookup
map", so setting a variable appends the entry and writes the map under the
folded name. -/
def Script.Setenv (os : OS W) (ts : Script W) (key value : String) : Script W :=
  { ts with env := ts.env ++ [key ++ "=" ++ value],
            envMap := ts.envMap.set (os.envvarname key) value }

/-- Modelled from the spec: `ts.Getenv` is not among the sources; it reads
the lookup map under the folded name, the empty string when unset. -/
def Script.Getenv (os : OS W) (ts : Script W) (key : String) : String :=
  (ts.envMap.get (os.envvarname key)).getD ""

/-- The request a script state makes for a program and its arguments. -/
def Script.req (ts : Script W) (command : String) (args : List String) : ExecReq :=
  { dir := ts.cd, env := ts.env, stdin := ts.stdin, command := command, args := args }

/-- Modelled from the spec: `ts.exec` is not among the sources; it "runs
synchronously to completion, capturing stdout/stderr", and the last status
code of the state is the exit code of that process ("`status` after the call
equals the spawned process's real exit code"). -/
def Script.exec (os : OS W) (ts : Script W) (command : String) (args : List String) :
    Script W × ProcResult :=
  let r := os.run ts.world (ts.req command args)
  ({ ts with world := r.1, status := r.2.exitCode }, r.2)

/-- Modelled from the spec: `ts.execBackground` is not among the sources;
"the process is launched" and its handle returned, or the launch error. -/
def Script.execBackground (os : OS W) (ts : Script W) (command : String) (args : List String) :
    Script W × Except Error Cmd :=
  let r := os.start ts.world (ts.req command args)
  ({ ts with world := r.1 }, r.2)

/-- Modelled from the spec: `ts.call` is not among the sources; it "invokes a
named in-process function" of the registered table and returns its captured
output and error. -/
def Script.call (os : OS W) (ts : Script W) (fn : String) (args : List String) :
    Script W × ProcResult :=
  let r := os.call ts.world (ts.req fn args)
  ({ ts with world := r.1 }, r.2)

/-- Modelled from the spec: `ts.http` is not among the sources; it "performs
a registered network call" and returns output, status and error. -/
def Script.http (os : OS W) (ts : Script W) (args : List String) : Script W × ProcResult :=
  let r := os.http ts.world (ts.req "" args)
  ({ ts with world := r.1 }, r.2)

/-- The two log writes that follow a capture: `[stdout]` and `[stderr]`
sections for non-empty buffers. -/
def Script.logCapture (ts : Script W) : Script W :=
  let ts1 := if ts.stdout ≠ "" then ts.Logf ("[stdout]\n" ++ ts.stdout) else ts
  if ts1.stderr ≠ "" then ts1.Logf ("[stderr]\n" ++ ts1.stderr) else ts1

/-! ## exec, call, http -/

/-- The closing block of `cmdExec` (lines 332-339): what happens with the
error of the run. -/
def execTail (os : OS W) (ts : Script W) (neg : Int) (err : Option Error) : Outcome W :=
  match err with
  | none => .done ts
  | some e =>
    let ts1 := ts.Logf ("[" ++ e ++ "]\n")
    if os.expired ts1.world then .abort (.fatal "test timed out while running command") ts1
    else if neg = 0 then .abort (.fatal "unexpected exec command failure") ts1
    else .done ts1

/-- The state change made by the monitor goroutine of `exec ... &` once the
process has exited (line 313): it stores the exit code in `ts.status`. -/
def monitorComplete (ts : Script W) (exitCode : Int) : Script W := { ts with status := exitCode }

/-- The branch of `cmdExec` for a line that ends in `&` (lines 306-318),
followed by the closing block. The monitor goroutine started at line 310
shares `ts.status` and the variable `err` with this line, without
synchronisation: what the closing block reads in `err` is `nil` unless the
goroutine has already run to its end, in which case it is the `werr` the
goroutine assigned at line 314. -/
def execBackgroundLine (os : OS W) (ts : Script W) (neg : Int) (command : String)
    (args : List String) : Outcome W :=
  let r := ts.execBackground os command args
  match r.2 with
  | .ok cmd =>
    let ts1 : Script W := { r.1 with background := r.1.background ++ [backgroundCmd.mk cmd neg] }
    let ts2 : Script W := { ts1 with stdout := "", stderr := "" }
    match os.monitorProgress ts2.world cmd with
    | .pending => execTail os ts2 neg none
    | .wroteStatus exitCode => execTail os (monitorComplete ts2 exitCode) neg none
    | .finished exitCode werr => execTail os (monitorComplete ts2 exitCode) neg werr
  | .error e => execTail os { r.1 with stdout := "", stderr := "" } neg (some e)

/-- The script state after the monitors of background commands have
completed, one after the other, with the given exit codes. -/
def afterMonitors (ts : Script W) (codes : List Int) : Script W :=
  codes.foldl monitorComplete ts

/-- The branch of `cmdExec` for a line without `&` (lines 320-329), followed
by the closing block. -/
def execForegroundLine (os : OS W) (ts : Script W) (neg : Int) (command : String)
    (args : List String) : Outcome W :=
  let r := ts.exec os command args
  let ts1 := ({ r.1 with stdout := r.2.stdout, stderr := r.2.stderr } : Script W).logCapture
  if r.2.err = none ∧ neg > 0 then .abort (.fatal "unexpected command success") ts1
  else execTail os ts1 neg r.2.err

/-- Handler `cmdExec`: `exec program [args...] [&]`. -/
def cmdExec (os : OS W) (ts : Script W) (neg : Int) (args : List String) : Outcome W :=
  if args.length < 1 ∨ (args.length = 1 ∧ args.head? = some "&") then
    .abort (.fatal "usage: exec program [args...] [&]") ts
  else if args.getLast? = some "&" then
    execBackgroundLine os ts neg (args.headD "") (args.tail.dropLast)
  else execForegroundLine os ts neg (args.headD "") args.tail

/-- Handler `cmdHttp`: `http function [args...]`. -/
def cmdHttp (os : OS W) (ts : Script W) (neg : Int) (args : List String) : Outcome W :=
  if args.length < 1 then .abort (.fatal "usage: http function [args...]") ts
  else
    let r := ts.http os args
    let ts1 := ({ r.1 with stdout := r.2.stdout, stderr := r.2.stderr,
                           status := r.2.exitCode } : Script W).logCapture
    if r.2.err = none ∧ neg > 0 then .abort (.fatal "unexpected http success") ts1
    else
      match r.2.err with
      | none => .done ts1
      | some e =>
        let ts2 := ts1.Logf ("[" ++ e ++ "]\n")
        if os.expired ts2.world then
          .abort (.fatal "test timed out while making http request") ts2
        else if neg > 0 then .abort (.fatal "unexpected http failure") ts2
        else .done ts2

/-- Handler `cmdCall`: `call function [args...]`. -/
def cmdCall (os : OS W) (ts : Script W) (neg : Int) (args : List String) : Outcome W :=
  if args.length < 1 then .abort (.fatal "usage: call function [args...]") ts
  else
    let r := ts.call os (args.headD "") args.tail
    let ts1 := ({ r.1 with stdout := r.2.stdout, stderr := r.2.stderr } : Script W).logCapture
    if r.2.err = none ∧ neg > 0 then .abort (.fatal "unexpected command success") ts1
    else
      match r.2.err with
      | none => .done ts1
      | some e =>
        let ts2 := ts1.Logf ("[" ++ e ++ "]\n")
        if os.expired ts2.world then .abort (.fatal "test timed out while running command") ts2
        else if neg > 0 then .abort (.fatal "unexpected command failure") ts2
        else .done ts2

/-! ## File-system commands -/

/-- Handler `cmdCd`: `cd dir`. -/
def cmdCd (os : OS W) (ts : Script W) (neg : Int) (args : List String) : Outcome W :=
  if neg ≠ 0 then .abort (.fatal "unsupported: !? cd") ts
  else
    match args with
    | [dir0] =>
      let dir := if os.IsAbs dir0 then dir0 else os.Join ts.cd dir0
      match os.Stat ts.world dir with
      | .notExist _ => .abort (.fatal ("directory " ++ dir ++ " does not exist")) ts
      | .failed err => .abort (.check err) ts
      | .ok info =>
        if !info.isDir then .abort (.fatal (dir ++ " is not a directory")) ts
        else .done (({ ts with cd := dir } : Script W).Logf (dir ++ "\n"))
    | _ => .abort (.fatal "usage: cd dir") ts

/-- Handler `cmdChmod`: `chmod mode file`. -/
def cmdChmod (os : OS W) (ts : Script W) (neg : Int) (args : List String) : Outcome W :=
  match args with
  | [m, file] =>
    match ParseInt "ParseInt" m 8 32 with
    | .error err => .abort (.fatal ("bad file mode " ++ quote m ++ ": " ++ err)) ts
    | .ok mode =>
      if mode > 0o777 then .abort (.fatal ("unsupported file mode " ++ octal3 mode)) ts
      else
        let r := os.Chmod ts.world (ts.MkAbs os file) (FileMode mode)
        let ts1 : Script W := { ts with world := r.1 }
        if neg > 0 then
          if r.2 = none then .abort (.fatal "unexpected chmod success") ts1 else .done ts1
        else
          match r.2 with
          | some err => .abort (.fatal ("unexpected chmod failure: " ++ err)) ts1
          | none => .done ts1
  | _ => .abort (.fatal "usage: chmod mode file") ts

/-- Function `doCmdCmp`: the comparison behind `cmp` and `cmpenv`. -/
def doCmdCmp (os : OS W) (ts : Script W) (args : List String) (env : Bool) : Outcome W :=
  match args with
  | name1 :: name2 :: _ =>
    match ts.ReadFile os name1 with
    | .error err => .abort (.check err) ts
    | .ok text1 =>
      let absName2 := ts.MkAbs os name2
      match os.ReadFile ts.world absName2 with
      | .error err => .abort (.check err) ts
      | .ok data =>
        let text2 := if env then os.expand ts.envMap data else data
        if text1 = text2 then .done ts
        else
          let differ : Outcome W :=
            .abort (.fatal (name1 ++ " and " ++ name2 ++ " differ"))
              (ts.Logf ("[diff -" ++ name1 ++ " +" ++ name2 ++ "]\n" ++ os.Diff text1 text2 ++ "\n"))
          if ts.updateScripts ∧ !env ∧ (name1 = "stdout" ∨ name1 = "stderr") then
            match ts.scriptFiles.get absName2 with
            | some scriptFile => .done { ts with scriptUpdates := ts.scriptUpdates.set scriptFile text1 }
            | none => differ
          else differ
  | _ => .abort (.panic "index out of range") ts

/-- Handler `cmdCmp`: `cmp file1 file2`. -/
def cmdCmp (os : OS W) (ts : Script W) (neg : Int) (args : List String) : Outcome W :=
  if neg ≠ 0 then .abort (.fatal "unsupported: !? cmp") ts
  else if args.length ≠ 2 then .abort (.fatal "usage: cmp file1 file2") ts
  else doCmdCmp os ts args false

/-- Handler `cmdCmpenv`: `cmpenv file1 file2`. -/
def cmdCmpenv (os : OS W) (ts : Script W) (neg : Int) (args : List String) : Outcome W :=
  if neg ≠ 0 then .abort (.fatal "unsupported: !? cmpenv") ts
  else if args.length ≠ 2 then .abort (.fatal "usage: cmpenv file1 file2") ts
  else doCmdCmp os ts args true

/-- Go `i := strings.Index(s, "=")` together with the slices `s[:i]` and
`s[i+1:]`; `none` when there is no `=` (`i < 0`). -/
def cutEq : List Char → Option (List Char × List Char)
  | [] => none
  | c :: cs => if c = '=' then some ([], cs) else (cutEq cs).map (fun kv => (c :: kv.1, kv.2))

/-- The loop of `cmdEnv` without arguments (lines 263-270): each effective
variable is logged once. Slicing an entry without `=` is a runtime panic. -/
def envPrintLoop (os : OS W) (ts : Script W) (printed : List String) : List String → Outcome W
  | [] => .done ts
  | kv :: rest =>
    match cutEq kv.data with
    | none => .abort (.panic "slice bounds out of range [:-1]") ts
    | some (k0, _) =>
      let k := os.envvarname ⟨k0⟩
      if printed.contains k then envPrintLoop os ts printed rest
      else
        envPrintLoop os (ts.Logf (k ++ "=" ++ (ts.envMap.get k).getD "" ++ "\n")) (k :: printed)
          rest

/-- The loop of `cmdEnv` over its arguments (lines 273-294). -/
def envLoop (os : OS W) (ts : Script W) : List String → Outcome W
  | [] => .done ts
  | env :: rest =>
    match cutEq env.data with
    | none => envLoop os (ts.Logf (env ++ "=" ++ ts.Getenv os env ++ "\n")) rest
    | some (k, v) =>
      match v with
      | [] => .abort (.panic "index out of range [0] with length 0") ts
      | c :: fname =>
        if c = '@' then
          if fname = "stdout".data then envLoop os (ts.Setenv os ⟨k⟩ ts.stdout) rest
          else if fname = "stderr".data then envLoop os (ts.Setenv os ⟨k⟩ ts.stderr) rest
          else
            match os.ReadFile ts.world (ts.MkAbs os ⟨fname⟩) with
            | .error err => .abort (.check err) ts
            | .ok data => envLoop os (ts.Setenv os ⟨k⟩ data) rest
        else envLoop os (ts.Setenv os ⟨k⟩ ⟨v⟩) rest

/-- Handler `cmdEnv`: `env [name[=value]...]`. -/
def cmdEnv (os : OS W) (ts : Script W) (neg : Int) (args : List String) : Outcome W :=
  if neg ≠ 0 then .abort (.fatal "unsupported: !? env") ts
  else if args.length = 0 then envPrintLoop os ts [] ts.env
  else envLoop os ts args

/-- The loop of `cmdMkdir` over its arguments. -/
def mkdirLoop (os : OS W) (ts : Script W) : List String → Outcome W
  | [] => .done ts
  | arg :: rest =>
    let r := os.MkdirAll ts.world (ts.MkAbs os arg) 0o777
    let ts1 : Script W := { ts with world := r.1 }
    match r.2 with
    | some err => .abort (.check err) ts1
    | none => mkdirLoop os ts1 rest

/-- Handler `cmdMkdir`: `mkdir dir...`. -/
def cmdMkdir (os : OS W) (ts : Script W) (neg : Int) (args : List String) : Outcome W :=
  if neg ≠ 0 then .abort (.fatal "unsupported: !? mkdir") ts
  else if args.length < 1 then .abort (.fatal "usage: mkdir dir...") ts
  else mkdirLoop os ts args

/-- The loop of `cmdRm` over its arguments: `removeAll(file)` makes the tree
writable and tries to remove it, `os.RemoveAll(file)` reports the error. -/
def rmLoop (os : OS W) (ts : Script W) : List String → Outcome W
  | [] => .done ts
  | arg :: rest =>
    let file := ts.MkAbs os arg
    let r := os.RemoveAll (os.forceWritable ts.world file) file
    let ts1 : Script W := { ts with world := r.1 }
    match r.2 with
    | some err => .abort (.check err) ts1
    | none => rmLoop os ts1 rest

/-- Handler `cmdRm`: `rm file...`. -/
def cmdRm (os : OS W) (ts : Script W) (neg : Int) (args : List String) : Outcome W :=
  if neg ≠ 0 then .abort (.fatal "unsupported: !? rm") ts
  else if args.length < 1 then .abort (.fatal "usage: rm file...") ts
  else rmLoop os ts args

/-- Handler `cmdStdin`: `stdin filename`. -/
def cmdStdin (os : OS W) (ts : Script W) (neg : Int) (args : List String) : Outcome W :=
  if neg ≠ 0 then .abort (.fatal "unsupported: !? stdin") ts
  else
    match args with
    | [file] =>
      match ts.ReadFile os file with
      | .error err => .abort (.check err) ts
      | .ok text => .done { ts with stdin := text }
    | _ => .abort (.fatal "usage: stdin filename") ts

/-- Handler `cmdStatus`: `status <int>`. -/
def cmdStatus (ts : Script W) (neg : Int) (args : List String) : Outcome W :=
  match args with
  | [a] =>
    if neg < 0 then .done ts
    else
      match Atoi a with
      | .error err => .abort (.fatal ("error: " ++ err ++ "\nusage: stdin <int>")) ts
      | .ok code =>
        if neg > 0 ∧ ts.status = code then
          .abort (.fatal ("unexpected status match: " ++ toString code)) ts
        else if neg = 0 ∧ ts.status ≠ code then
          .abort (.fatal ("unexpected status mismatch:  wated: " ++ toString code ++ "  got "
            ++ toString ts.status)) ts
        else .done ts
  | _ => .abort (.fatal "usage: status <int>") ts

/-- Handler `cmdStop`: `stop [msg]`. -/
def cmdStop (ts : Script W) (neg : Int) (args : List String) : Outcome W :=
  if neg ≠ 0 then .abort (.fatal "unsupported: !? stop") ts
  else if args.length > 1 then .abort (.fatal "usage: stop [msg]") ts
  else
    let ts1 :=
      match args with
      | [msg] => ts.Logf ("stop: " ++ msg ++ "\n")
      | _ => ts.Logf "stop\n"
    .done { ts1 with stopped := true }

/-- Handler `cmdSymlink`: `symlink file -> target`. -/
def cmdSymlink (os : OS W) (ts : Script W) (neg : Int) (args : List String) : Outcome W :=
  if neg ≠ 0 then .abort (.fatal "unsupported: !? symlink") ts
  else
    match args with
    | [file, arrow, target] =>
      if arrow ≠ "->" then .abort (.fatal "usage: symlink file -> target") ts
      else
        let r := os.Symlink ts.world target (ts.MkAbs os file)
        let ts1 : Script W := { ts with world := r.1 }
        match r.2 with
        | some err => .abort (.check err) ts1
        | none => .done ts1
    | _ => .abort (.fatal "usage: symlink file -> target") ts

/-! ## Background commands -/

/-- The loop of `cmdWait` over `ts.background`, with the two accumulators
`stdouts` and `stderrs`; the empty list is the code after the loop. -/
def waitLoop (os : OS W) (ts : Script W) (stdouts stderrs : List String) :
    List backgroundCmd → Outcome W
  | [] =>
    .done { ts with stdout := String.join stdouts, stderr := String.join stderrs,
                    background := [] }
  | bg :: rest =>
    let r := os.wait ts.world bg.cmd
    let ts1 := ({ ts with world := r.1 } : Script W).Logf
      ("[background] " ++ " ".intercalate (os.Base bg.cmd.path :: bg.cmd.args) ++ ": "
        ++ r.2.text ++ "\n")
    let ts2 := if r.2.stdout ≠ "" then ts1.Logf ("[stdout]\n" ++ r.2.stdout) else ts1
    let stdouts1 := if r.2.stdout ≠ "" then stdouts ++ [r.2.stdout] else stdouts
    let ts3 := if r.2.stderr ≠ "" then ts2.Logf ("[stderr]\n" ++ r.2.stderr) else ts2
    let stderrs1 := if r.2.stderr ≠ "" then stderrs ++ [r.2.stderr] else stderrs
    if r.2.success then
      if bg.neg > 0 then .abort (.fatal "unexpected command success") ts3
      else waitLoop os ts3 stdouts1 stderrs1 rest
    else if os.expired ts3.world then
      .abort (.fatal "test timed out while running command") ts3
    else if bg.neg = 0 then .abort (.fatal "unexpected command failure") ts3
    else waitLoop os ts3 stdouts1 stderrs1 rest

/-- Handler `cmdWait`: `wait`. -/
def cmdWait (os : OS W) (ts : Script W) (neg : Int) (args : List String) : Outcome W :=
  if neg ≠ 0 then .abort (.fatal "unsupported: !? wait") ts
  else if args.length > 0 then .abort (.fatal "usage: wait") ts
  else waitLoop os ts [] [] ts.background

/-- Handler `cmdSkip`: `skip [msg]`. -/
def cmdSkip (os : OS W) (ts : Script W) (neg : Int) (args : List String) : Outcome W :=
  if neg ≠ 0 then .abort (.fatal "unsupported: !? skip") ts
  else if args.length > 1 then .abort (.fatal "usage: skip [msg]") ts
  else
    let ts1 : Script W :=
      { ts with world := ts.background.foldl (fun w bg => os.interruptProcess w bg.cmd) ts.world }
    match cmdWait os ts1 0 [] with
    | .done ts2 =>
      match args with
      | [msg] => .abort (.skip (some msg)) ts2
      | _ => .abort (.skip none) ts2
    | stopped => stopped

/-- The first step of `cmdSkip` (lines 428-430): every registered background
process is sent the interrupt signal. -/
def interruptAll (os : OS W) (ts : Script W) : Script W :=
  { ts with world := ts.background.foldl (fun w bg => os.interruptProcess w bg.cmd) ts.world }

/-- The script state inside the loop of `cmdWait` once one background command
has been joined and its output logged (lines 545-560): the world after the
join and three log writes. -/
def joinLogged (os : OS W) (ts : Script W) (bg : backgroundCmd) : Script W :=
  let r := os.wait ts.world bg.cmd
  let ts1 := ({ ts with world := r.1 } : Script W).Logf
    ("[background] " ++ " ".intercalate (os.Base bg.cmd.path :: bg.cmd.args) ++ ": "
      ++ r.2.text ++ "\n")
  let ts2 := if r.2.stdout ≠ "" then ts1.Logf ("[stdout]\n" ++ r.2.stdout) else ts1
  if r.2.stderr ≠ "" then ts2.Logf ("[stderr]\n" ++ r.2.stderr) else ts2

/-- What is read from the background commands when they are joined one after
the other in the given order, starting from the world `w`: for each command
the state `OS.wait` returns for it. -/
def joinStates (os : OS W) (w : W) : List backgroundCmd → List ProcState
  | [] => []
  | bg :: rest => (os.wait w bg.cmd).2 :: joinStates os (os.wait w bg.cmd).1 rest

/-- The world after the background commands have been joined one after the
other in the given order. -/
def joinWorld (os : OS W) (w : W) : List backgroundCmd → W
  | [] => w
  | bg :: rest => joinWorld os (os.wait w bg.cmd).1 rest

/-! ## The matcher -/

/-- The block repeated in `scriptMatch` for a pattern, a replacement and a
`sed` source that is not a buffer name (lines 624-629, 660-665, 675-680):
`tok[0] == '@'` selects the content of the file `tok[1:]`, any other first
byte keeps the token, and indexing the empty token is a runtime panic. -/
def atFile (os : OS W) (ts : Script W) (tok : String) : Except Abort String :=
  match tok.data with
  | [] => .error (.panic "index out of range [0] with length 0")
  | c :: fname =>
    if c = '@' then
      match os.ReadFile ts.world (ts.MkAbs os ⟨fname⟩) with
      | .ok data => .ok data
      | .error err => .error (.check err)
    else .ok tok

/-- Lines 635-682 of `scriptMatch`: the text to match against, the name used
in messages and the replacement, for an argument list that has passed the
arity check. `cmd` is the command name the handler passed in. -/
def scriptMatchSource (os : OS W) (ts : Script W) (cmd : String) (args : List String)
    (text name : String) : Except Abort (String × String × String) :=
  let first : Except Abort (String × String) :=
    if cmd = "regexp" ∨ cmd = "grep" then
      let content := args.getD 1 ""
      if content = "stdout" ∨ content = "$WORK/stdout" then .ok (ts.stdout, name)
      else if content = "stderr" ∨ content = "$WORK/stderr" then .ok (ts.stderr, name)
      else
        match os.ReadFile ts.world (ts.MkAbs os content) with
        | .error err => .error (.check err)
        | .ok data => .ok (data, content)
    else .ok (text, name)
  match first with
  | .error why => .error why
  | .ok (text1, name1) =>
    if cmd = "sed" then
      let replace0 := args.getD 1 ""
      let second : Except Abort (String × String) :=
        if replace0 = "stdout" ∨ replace0 = "$WORK/stdout" then .ok (ts.stdout, replace0)
        else if replace0 = "stderr" ∨ replace0 = "$WORK/stderr" then .ok (ts.stderr, replace0)
        else
          match atFile os ts replace0 with
          | .error why => .error why
          | .ok replace => .ok (text1, replace)
      match second with
      | .error why => .error why
      | .ok (text2, replace) =>
        let content := args.getD 2 ""
        if content = "stdout" ∨ content = "$WORK/stdout" then .ok (ts.stdout, name1, replace)
        else if content = "stderr" ∨ content = "$WORK/stderr" then .ok (ts.stderr, name1, replace)
        else
          match atFile os ts content with
          | .error why => .error why
          | .ok _ => .ok (text2, name1, replace)
    else .ok (text1, name1, "")

/-- Lines 684-725 of `scriptMatch`: the assertion, or the extraction of
`grep` and the substitution of `sed`. -/
def scriptMatchAssert (ts : Script W) (neg n : Int) (cmd pattern : String) (re : Regexp)
    (text name replace : String) : Outcome W :=
  let isGrep : Bool := cmd = "grep"
  let isSed : Bool := cmd = "sed"
  if neg > 0 then
    if re.MatchString text then
      .abort (.fatal ("unexpected match for " ++ backquote pattern ++ " found in " ++ name ++ ": "
          ++ re.FindString text))
        (if isGrep then ts.Logf ("[" ++ name ++ "]\n" ++ text ++ "\n") else ts)
    else
      let ts1 : Script W :=
        if isGrep then
          let c : Int := if n > 0 then n else -1
          let found := re.FindAllString text c
          let found := if c > 0 ∧ (found.length : Int) > c then found.take c.toNat else found
          { ts with stdout := "\n".intercalate found }
        else ts
      let ts2 : Script W :=
        if isSed then { ts1 with stdout := re.ReplaceAllString text replace } else ts1
      .done ts2
  else
    if isGrep ∨ isSed then .abort (.fatal (name ++ " does not support status checking")) ts
    else if !re.MatchString text then
      .abort (.fatal ("no match for " ++ backquote pattern ++ " found in " ++ name))
        (if isGrep then ts.Logf ("[" ++ name ++ "]\n" ++ text ++ "\n") else ts)
    else if n > 0 then
      let count : Int := (re.FindAllString text (-1)).length
      if count ≠ n then
        .abort (.fatal ("have " ++ toString count ++ " matches for " ++ backquote pattern
            ++ ", want " ++ toString n))
          (if isGrep then ts.Logf ("[" ++ name ++ "]\n" ++ text ++ "\n") else ts)
      else .done ts
    else .done ts

/-- The test of line 583: `len(args) >= 1 && strings.HasPrefix(args[0], "-count=")`. -/
def hasCountFlag (args : List String) : Bool :=
  match args with
  | a :: _ => startsWith a "-count="
  | [] => false

/-- Lines 598-632 of `scriptMatch` and what follows them: the arity check,
the resolution and compilation of the pattern, then `scriptMatchSource` and
`scriptMatchAssert`. `n` is the value of the count flag (0 without one) and
`args` the arguments after it. -/
def scriptMatchPattern (os : OS W) (ts : Script W) (neg n : Int) (args : List String)
    (text name : String) : Outcome W :=
  let extraUsage :=
    if name = "sed" then " replace file"
    else if name = "regexp" ∨ name = "grep" then " file" else ""
  let want := if name = "sed" then 3 else if name = "regexp" ∨ name = "grep" then 2 else 1
  if args.length ≠ want then
    .abort (.fatal ("usage: " ++ name ++ " [-count=N] 'pattern'" ++ extraUsage)) ts
  else
    let arg0 := args.headD ""
    let resolved : Except Abort String :=
      if arg0 = "stdout" then .ok ts.stdout
      else if arg0 = "stderr" then .ok ts.stderr
      else atFile os ts arg0
    match resolved with
    | .error why => .abort why ts
    | .ok pattern =>
      match os.Compile ("(?m)" ++ pattern) with
      | .error err => .abort (.check err) ts
      | .ok re =>
        match scriptMatchSource os ts name args text name with
        | .error why => .abort why ts
        | .ok (text1, name1, replace) =>
          scriptMatchAssert ts neg n name pattern re text1 name1 replace

/-- Function `scriptMatch`, shared by `stdout`, `stderr`, `regexp`, `grep`
and `sed`: the `-count=` flag (lines 582-596), then `scriptMatchPattern` on
the remaining arguments. -/
def scriptMatch (os : OS W) (ts : Script W) (neg : Int) (args0 : List String)
    (text name : String) : Outcome W :=
  let hasCount : Bool := hasCountFlag args0
  if hasCount ∧ neg ≠ 0 then .abort (.fatal "cannot use -count= with negated match") ts
  else
    match (if hasCount then Atoi (dropBytes (args0.headD "") 7) else .ok 0) with
    | .error err => .abort (.fatal ("bad -count=: " ++ err)) ts
    | .ok n =>
      if hasCount ∧ n < 1 then .abort (.fatal "bad -count=: must be at least 1") ts
      else scriptMatchPattern os ts neg n (if hasCount then args0.tail else args0) text name

/-- The resolution rule of the specification (section 4.4), to compare
`scriptMatch` with: a token equal to `stdout` or `stderr` "resolves to the
corresponding capture buffer", a token beginning with `@` "resolves to the
contents of the named sandbox file (stripping the `@`)", and "otherwise the
token is used verbatim". -/
def specResolve (os : OS W) (ts : Script W) (tok : String) : Except Error String :=
  if tok = "stdout" then .ok ts.stdout
  else if tok = "stderr" then .ok ts.stderr
  else
    match tok.data with
    | c :: f => if c = '@' then os.ReadFile ts.world (ts.MkAbs os ⟨f⟩) else .ok tok
    | [] => .ok tok

/-- The number of arguments `scriptMatch` wants after the count flag. -/
def wantArgs (name : String) : Nat :=
  if name = "sed" then 3 else if name = "regexp" ∨ name = "grep" then 2 else 1

/-- Handler `cmdStdout`: `stdout [-count=N] pattern`. -/
def cmdStdout (os : OS W) (ts : Script W) (neg : Int) (args : List String) : Outcome W :=
  scriptMatch os ts neg args ts.stdout "stdout"

/-- Handler `cmdStderr`: `stderr [-count=N] pattern`. -/
def cmdStderr (os : OS W) (ts : Script W) (neg : Int) (args : List String) : Outcome W :=
  scriptMatch os ts neg args ts.stderr "stderr"

/-- Handler `cmdRegexp`: `regexp [-count=N] pattern file`. -/
def cmdRegexp (os : OS W) (ts : Script W) (neg : Int) (args : List String) : Outcome W :=
  scriptMatch os ts neg args "" "regexp"

/-- Handler `cmdGrep`: `grep [-count=N] pattern file`. -/
def cmdGrep (os : OS W) (ts : Script W) (neg : Int) (args : List String) : Outcome W :=
  scriptMatch os ts neg args "" "grep"

/-- Handler `cmdSed`: `sed pattern replace file`. -/
def cmdSed (os : OS W) (ts : Script W) (neg : Int) (args : List String) : Outcome W :=
  scriptMatch os ts neg args "" "sed"

/-! ## A small concrete system

One instance of `OS`, used to run the handlers on concrete command lines: a
file system that is a list of regular files, the programs `true`, `false`,
`echo` and `sleep`, and regular expressions made of literal characters. -/

/-- The world of the concrete system: the files (path and content) and
whether the deadline of the run has passed. -/
structure ToyWorld where
  files : List (String × String)
  expired : Bool
  interrupted : List Nat := []
  deriving DecidableEq, Repr

/-- Successive non-overlapping occurrences of the non-empty literal `p`; the
counter is the number of characters of the current occurrence still to skip. -/
def litScan (p : List Char) : Nat → List Char → List String
  | _, [] => []
  | skip + 1, _ :: cs => litScan p skip cs
  | 0, c :: cs =>
    if p.isPrefixOf (c :: cs) then String.mk p :: litScan p (p.length - 1) cs
    else litScan p 0 cs

/-- The text with every occurrence found by `litScan` replaced by `r`. -/
def litReplace (p r : List Char) : Nat → List Char → List Char
  | _, [] => []
  | skip + 1, _ :: cs => litReplace p r skip cs
  | 0, c :: cs =>
    if p.isPrefixOf (c :: cs) then r ++ litReplace p r (p.length - 1) cs
    else c :: litReplace p r 0 cs

/-- The regular expression that is the literal `p`. The empty expression
matches the empty string at every position. -/
def litRegexp (p : List Char) : Regexp :=
  { findAll := fun text =>
      if p = [] then List.replicate (text.data.length + 1) "" else litScan p 0 text.data
    replaceAll := fun text r =>
      if p = [] then String.mk (r.data ++ text.data.flatMap (fun c => c :: r.data))
      else String.mk (litReplace p r.data 0 text.data) }

/-- Compilation in the concrete system: `(?m)` followed by letters, digits
and spaces is a literal; `(?m)(` is rejected as it is by Go; other syntax is
outside this fragment and reported as unsupported. -/
def litCompile (expr : String) : Except Error Regexp :=
  let body := expr.data.drop 4
  if expr.data.take 4 ≠ "(?m)".data then .error "unsupported: flags"
  else if body.all (fun c => c.isAlphanum || c = ' ') then .ok (litRegexp body)
  else if body = ['('] then .error "error parsing regexp: missing closing ): `(?m)(`"
  else .error "unsupported: not a literal"

/-- The programs of the concrete system. -/
def toyRun (w : ToyWorld) (r : ExecReq) : ToyWorld × ProcResult :=
  if r.command = "true" ∨ r.command = "sleep" then
    (w, { stdout := "", stderr := "", exitCode := 0, err := none })
  else if r.command = "echo" then
    (w, { stdout := " ".intercalate r.args ++ "\n", stderr := "", exitCode := 0, err := none })
  else if r.command = "false" then
    (w, { stdout := "", stderr := "", exitCode := 1, err := some "exit status 1" })
  else
    (w, { stdout := "", stderr := "", exitCode := -1,
          err := some ("exec: " ++ quote r.command ++ ": executable file not found in $PATH") })

/-- The state of a background program of the concrete system at its exit: a
program that was sent the interrupt signal exits unsuccessfully, any other
one as it does in the foreground. -/
def toyWait (w : ToyWorld) (c : Cmd) : ToyWorld × ProcState :=
  let r := (toyRun w { dir := "", env := [], stdin := "", command := c.path, args := c.args }).2
  if w.interrupted.contains c.pid then
    (w, { stdout := "", stderr := "", success := false, exitCode := -1,
          text := "signal: interrupt" })
  else
    (w, { stdout := r.stdout, stderr := r.stderr, success := r.err.isNone,
          exitCode := r.exitCode, text := "exit status " ++ toString r.exitCode })

/-- The concrete system. -/
def toyOS : OS ToyWorld :=
  { IsAbs := fun p => startsWith p "/"
    Join := fun a b => a ++ "/" ++ b
    Base := fun p => p
    Stat := fun w p =>
      match GoMap.get w.files p with
      | some _ => .ok { isDir := false, mode := 0o644 }
      | none => .notExist ("stat " ++ p ++ ": no such file or directory")
    ReadFile := fun w p =>
      match GoMap.get w.files p with
      | some data => .ok data
      | none => .error ("open " ++ p ++ ": no such file or directory")
    Chmod := fun w p _ =>
      match GoMap.get w.files p with
      | some _ => (w, none)
      | none => (w, some ("chmod " ++ p ++ ": no such file or directory"))
    MkdirAll := fun w _ _ => (w, none)
    RemoveAll := fun w p => ({ w with files := w.files.filter (fun kv => !(kv.1 == p)) }, none)
    forceWritable := fun w _ => w
    Symlink := fun w _ _ => (w, none)
    Compile := litCompile
    run := toyRun
    start := fun w r => (w, .ok { pid := 1, path := r.command, args := r.args })
    wait := toyWait
    interruptProcess := fun w c => { w with interrupted := c.pid :: w.interrupted }
    call := toyRun
    http := fun w r => toyRun w { r with command := r.args.headD "" }
    expired := fun w => w.expired
    expand := fun _ text => text
    Diff := fun _ _ => ""
    envvarname := fun k => k
    monitorProgress := fun _ _ => .pending }

/-- The concrete system with a fast scheduler: the monitor of a background
`false` has run to its end, with the error of the failed process, before the
line that launched it reads `err`. -/
def toyFastOS : OS ToyWorld :=
  { toyOS with
    monitorProgress := fun _ c =>
      if c.path = "false" then .finished 1 (some "exit status 1") else .pending }

/-- A script state of the concrete system: working directory `/work`, empty
buffers, one file `/work/golden` that comes from the archive. -/
def toyScript : Script ToyWorld :=
  { cd := "/work", env := [], envMap := [], stdin := "", stdout := "", stderr := "", status := 0,
    background := [], log := "", stopped := false, updateScripts := false,
    scriptFiles := [("/work/golden", "golden")], scriptUpdates := [],
    world := { files := [("/work/golden", "hello\n")], expired := false } }

/-- The state `toyScript` with the given text in the stdout buffer. -/
def toyWith (out : String) : Script ToyWorld := { toyScript with stdout := out }

/-- Two background commands of the concrete system, `echo a` and `echo b`,
registered in that order without negation. -/
def toyTasks : Script ToyWorld :=
  { toyScript with
    background := [backgroundCmd.mk (Cmd.mk 1 "echo" ["a"]) 0,
                   backgroundCmd.mk (Cmd.mk 2 "echo" ["b"]) 0] }

/-- One background `sleep 5` of the concrete system, registered with the
given negation flag. -/
def toySleeper (neg : Int) : Script ToyWorld :=
  { toyScript with background := [backgroundCmd.mk (Cmd.mk 3 "sleep" ["5"]) neg] }

/-- The state `toyScript` once the deadline of the run has passed. -/
def toyExpired : Script ToyWorld :=
  { toyScript with world := { files := [("/work/golden", "hello\n")], expired := true } }

/-- The state `toyWith out` in update mode. -/
def toyUpdating (out : String) : Script ToyWorld := { toyWith out with updateScripts := true }

/-- Three background commands of the concrete system registered in this
order: `echo a` and `false` without negation, then `true` negated. -/
def toyMixed : Script ToyWorld :=
  { toyScript with
    stdout := "before",
    background := [backgroundCmd.mk (Cmd.mk 1 "echo" ["a"]) 0,
                   backgroundCmd.mk (Cmd.mk 2 "false" []) 0,
                   backgroundCmd.mk (Cmd.mk 3 "true" []) 1] }

/-! ## Classification of aborts -/

/-- Go `strings.HasSuffix(s, p)`. -/
def endsWith (s p : String) : Bool := p.data.isSuffixOf s.data

/-- The abort is a usage error of the matcher: a `Fatalf` about the count
flag, about the number of arguments, or saying that the command "does not
support status checking". A failed `Check` (file read, compilation of the
pattern), a failed assertion and a panic are not. -/
def Abort.isUsage : Abort → Bool
  | .fatal msg =>
    startsWith msg "usage: " || startsWith msg "bad -count=" ||
      startsWith msg "cannot use -count=" || endsWith msg " does not support status checking"
  | _ => false

/-! ## The outcome of a join and the text of `sed`, in the words of the claims -/

/-- The outcome of a background task contradicts the negation flag recorded
for it at launch: joined in the world `w`, it succeeded with `neg > 0`, or it
failed with `neg = 0`, or it failed while the deadline has expired. -/
def contradictsFlag (os : OS W) (w : W) (bg : backgroundCmd) : Bool :=
  let r := os.wait w bg.cmd
  (r.2.success && decide (bg.neg > 0)) || (!r.2.success && decide (bg.neg = 0)) ||
    (!r.2.success && os.expired r.1)

/-- The message `wait` gives for a task whose outcome contradicts its flag. -/
def verdictMessage (os : OS W) (w : W) (bg : backgroundCmd) : String :=
  let r := os.wait w bg.cmd
  if r.2.success then "unexpected command success"
  else if os.expired r.1 then "test timed out while running command"
  else "unexpected command failure"

/-- The message decided by the first task, in registration order, whose
outcome contradicts its flag; `none` when no task does. Each task is joined
in the world left by the joins before it. -/
def waitVerdict (os : OS W) (w : W) : List backgroundCmd → Option String
  | [] => none
  | bg :: rest =>
    if contradictsFlag os w bg then some (verdictMessage os w bg)
    else waitVerdict os (os.wait w bg.cmd).1 rest

/-- The text a negated `sed` operates on, as a function of its replacement
and source tokens: the capture buffer named by the source token, else the one
named by the replacement token, else the empty string. A buffer is named by
`stdout` or `stderr`, also with `$WORK/` in front. -/
def sedText (ts : Script W) (replace source : String) : String :=
  if source = "stdout" ∨ source = "$WORK/stdout" then ts.stdout
  else if source = "stderr" ∨ source = "$WORK/stderr" then ts.stderr
  else if replace = "stdout" ∨ replace = "$WORK/stdout" then ts.stdout
  else if replace = "stderr" ∨ replace = "$WORK/stderr" then ts.stderr
  else ""

/-! ## Lemmas on the helpers -/

@[simp] theorem Logf_world (ts : Script W) (t : String) : (ts.Logf t).world = ts.world := rfl

@[simp] theorem Logf_status (ts : Script W) (t : String) : (ts.Logf t).status = ts.status := rfl

@[simp] theorem Logf_stdout (ts : Script W) (t : String) : (ts.Logf t).stdout = ts.stdout := rfl

@[simp] theorem Logf_stderr (ts : Script W) (t : String) : (ts.Logf t).stderr = ts.stderr := rfl

@[simp] theorem logCapture_world (ts : Script W) : ts.logCapture.world = ts.world := by
  unfold Script.logCapture Script.Logf; dsimp only; split_ifs <;> rfl

@[simp] theorem logCapture_status (ts : Script W) : ts.logCapture.status = ts.status := by
  unfold Script.logCapture Script.Logf; dsimp only; split_ifs <;> rfl

/-- A line whose last argument is not `&` takes the foreground branch. -/
theorem cmdExec_sync (os : OS W) (ts : Script W) (neg : Int) (prog : String)
    (rest : List String) (hsync : (prog :: rest).getLast? ≠ some "&") :
    cmdExec os ts neg (prog :: rest) = execForegroundLine os ts neg prog rest := by
  have hne : ¬ (rest = [] ∧ prog = "&") := by
    rintro ⟨h1, h2⟩
    subst h1 h2
    simp at hsync
  simp [cmdExec, hsync, hne]

/-! ## exec, call, http: the negation contract -/

/-- C1: a synchronous `exec` (last argument not `&`) whose run ends with the
deadline not expired completes when the process succeeds and `neg = 0` and
when it fails and `neg > 0`; it stops in `Fatalf` when the process succeeds
under `neg > 0` ("unexpected command success") and when it fails under
`neg = 0` ("unexpected exec command failure"). -/
theorem cmdExec_sync_negation (os : OS W) (ts : Script W) (neg : Int) (prog : String)
    (rest : List String) (hsync : (prog :: rest).getLast? ≠ some "&")
    (hlive : os.expired (os.run ts.world (ts.req prog rest)).1 = false) :
    ((os.run ts.world (ts.req prog rest)).2.err = none → neg = 0 →
        (cmdExec os ts neg (prog :: rest)).completes = true) ∧
    ((os.run ts.world (ts.req prog rest)).2.err ≠ none → neg > 0 →
        (cmdExec os ts neg (prog :: rest)).completes = true) ∧
    ((os.run ts.world (ts.req prog rest)).2.err = none → neg > 0 →
        ∃ ts1, cmdExec os ts neg (prog :: rest)
          = .abort (.fatal "unexpected command success") ts1) ∧
    ((os.run ts.world (ts.req prog rest)).2.err ≠ none → neg = 0 →
        ∃ ts1, cmdExec os ts neg (prog :: rest)
          = .abort (.fatal "unexpected exec command failure") ts1) := by
  rw [cmdExec_sync os ts neg prog rest hsync]
  refine ⟨?_, ?_, ?_, ?_⟩
  · intro he hn
    simp [execForegroundLine, Script.exec, he, hn, execTail, Outcome.completes]
  · intro he hn
    obtain ⟨e, he⟩ := Option.ne_none_iff_exists'.mp he
    have hn0 : neg ≠ 0 := by omega
    simp [execForegroundLine, Script.exec, he, hn0, execTail, Outcome.completes, hlive]
  · intro he hn
    simp [execForegroundLine, Script.exec, he, hn]
  · intro he hn
    obtain ⟨e, he⟩ := Option.ne_none_iff_exists'.mp he
    simp [execForegroundLine, Script.exec, he, hn, execTail, hlive]

/-- Witness for C1: `exec false` in the concrete system, not negated, stops
with "unexpected exec command failure". -/
theorem cmdExec_sync_negation_witness :
    (["false"].getLast? ≠ some "&" ∧
      toyOS.expired (toyOS.run toyScript.world (toyScript.req "false" [])).1
        = false) ∧
    ∃ ts1, cmdExec toyOS toyScript 0 ["false"]
      = .abort (.fatal "unexpected exec command failure") ts1 :=
  ⟨⟨by decide, rfl⟩,
    (cmdExec_sync_negation toyOS toyScript 0 "false" [] (by decide) rfl).2.2.2
      (by decide) rfl⟩

/-- The handler alone: in the state a synchronous `exec` (last argument not
`&`) ends in, returned or stopped in `Fatalf`, the status field is the exit
code of the process that was run. No monitor of a background command takes a
step in this statement. -/
theorem cmdExec_sync_status_handler (os : OS W) (ts : Script W) (neg : Int) (prog : String)
    (rest : List String) (hsync : (prog :: rest).getLast? ≠ some "&") :
    (cmdExec os ts neg (prog :: rest)).state.status
      = (os.run ts.world (ts.req prog rest)).2.exitCode := by
  rw [cmdExec_sync os ts neg prog rest hsync]
  unfold execForegroundLine
  dsimp only
  split_ifs
  · simp [Outcome.state, Script.exec]
  · unfold execTail
    split
    · simp [Outcome.state, Script.exec]
    · dsimp only
      split_ifs <;> simp [Outcome.state, Script.exec]

/-- C3: `call` and `http` do not follow the contract of synchronous `exec`.
With the deadline not expired and an operation that returns an error, `exec`
stops under `neg = 0` and completes under `neg > 0`, while `call` and `http`
complete under `neg = 0` and stop under `neg > 0`. -/
theorem cmdCall_cmdHttp_failure_contract :
    (cmdExec toyOS toyScript 0 ["false"]).fails = true ∧
    (cmdCall toyOS toyScript 0 ["false"]).completes = true ∧
    (cmdHttp toyOS toyScript 0 ["false"]).completes = true ∧
    (cmdExec toyOS toyScript 1 ["false"]).completes = true ∧
    (cmdCall toyOS toyScript 1 ["false"]).fails = true ∧
    (cmdHttp toyOS toyScript 1 ["false"]).fails = true := by
  decide

/-! ## Commands without negation -/

/-- C4, counterexample: a negated `chmod 644 missing` on a file that does not
exist completes: `os.Chmod` is called, fails, and the handler returns. -/
theorem cmdChmod_negated_completes :
    cmdChmod toyOS toyScript 1 ["644", "missing"] = .done toyScript := by
  decide

/-- C4, amended: with a positive negation flag each of `cd`, `mkdir`, `rm`,
`symlink`, `stdin`, `stop`, `wait`, `cmp`, `cmpenv` and `skip` stops in
`Fatalf` "unsupported" with the script state and the world untouched, for
every argument list; `chmod` supports negation: with a mode that parses as an
octal number up to 0777 it calls `os.Chmod` and stops in `Fatalf` exactly when
that call succeeds. -/
theorem negation_unsupported (os : OS W) (ts : Script W) (neg : Int) (args : List String)
    (hneg : 0 < neg) :
    cmdCd os ts neg args = .abort (.fatal "unsupported: !? cd") ts ∧
    cmdMkdir os ts neg args = .abort (.fatal "unsupported: !? mkdir") ts ∧
    cmdRm os ts neg args = .abort (.fatal "unsupported: !? rm") ts ∧
    cmdSymlink os ts neg args = .abort (.fatal "unsupported: !? symlink") ts ∧
    cmdStdin os ts neg args = .abort (.fatal "unsupported: !? stdin") ts ∧
    cmdStop ts neg args = .abort (.fatal "unsupported: !? stop") ts ∧
    cmdWait os ts neg args = .abort (.fatal "unsupported: !? wait") ts ∧
    cmdCmp os ts neg args = .abort (.fatal "unsupported: !? cmp") ts ∧
    cmdCmpenv os ts neg args = .abort (.fatal "unsupported: !? cmpenv") ts ∧
    cmdSkip os ts neg args = .abort (.fatal "unsupported: !? skip") ts ∧
    (∀ m file mode, ParseInt "ParseInt" m 8 32 = .ok mode → mode ≤ 0o777 →
      cmdChmod os ts neg [m, file] =
        if (os.Chmod ts.world (ts.MkAbs os file) (FileMode mode)).2 = none then
          .abort (.fatal "unexpected chmod success")
            { ts with world := (os.Chmod ts.world (ts.MkAbs os file) (FileMode mode)).1 }
        else
          .done { ts with world := (os.Chmod ts.world (ts.MkAbs os file) (FileMode mode)).1 }) := by
  have hne : neg ≠ 0 := by omega
  refine ⟨?_, ?_, ?_, ?_, ?_, ?_, ?_, ?_, ?_, ?_, ?_⟩
  · simp [cmdCd, hne]
  · simp [cmdMkdir, hne]
  · simp [cmdRm, hne]
  · simp [cmdSymlink, hne]
  · simp [cmdStdin, hne]
  · simp [cmdStop, hne]
  · simp [cmdWait, hne]
  · simp [cmdCmp, hne]
  · simp [cmdCmpenv, hne]
  · simp [cmdSkip, hne]
  · intro m file mode hm hle
    have hgt : ¬ mode > 0o777 := by omega
    simp [cmdChmod, hm, hgt, hneg]

/-- Witness for C4: `! cd /tmp` and `! chmod 644 golden` in the concrete
system. -/
theorem negation_unsupported_witness :
    (0 : Int) < 1 ∧
    cmdCd toyOS toyScript 1 ["/tmp"]
      = .abort (.fatal "unsupported: !? cd") toyScript ∧
    cmdChmod toyOS toyScript 1 ["644", "golden"]
      = .abort (.fatal "unexpected chmod success") toyScript :=
  ⟨by decide, (negation_unsupported toyOS toyScript 1 ["/tmp"] (by decide)).1,
    by decide⟩

/-! ## The matcher: `grep` and `sed` without negation -/

/-- A string starts with its first part. -/
theorem startsWith_append (p x : String) : startsWith (p ++ x) p = true := by
  simp [startsWith, String.data_append]

/-- A string ends with its last part. -/
theorem endsWith_append (x p : String) : endsWith (x ++ p) p = true := by
  simp [endsWith, String.data_append]

/-- On a non-empty token `atFile` can only stop in a failed `Check`. -/
theorem atFile_error (os : OS W) (ts : Script W) (tok : String) (h : tok ≠ "") (why : Abort)
    (he : atFile os ts tok = .error why) : ∃ e, why = .check e := by
  unfold atFile at he
  split at he
  · rename_i hd
    exact absurd (String.ext hd) h
  · split_ifs at he
    · split at he
      · cases he
      · cases he; exact ⟨_, rfl⟩

/-- An argument at a valid index is one of the arguments. -/
theorem getD_mem_ne (args : List String) (h : ∀ a ∈ args, a ≠ "") (i : Nat) (hi : i < args.length) :
    args.getD i "" ≠ "" := by
  rw [List.getD_eq_getElem _ _ hi]
  exact h _ (List.getElem_mem _)

/-- With no empty argument a stop of `scriptMatchSource` is a failed `Check`. -/
theorem scriptMatchSource_error (os : OS W) (ts : Script W) (cmd : String) (args : List String)
    (text name : String) (h : ∀ a ∈ args, a ≠ "") (hlen : cmd = "sed" → args.length = 3)
    (why : Abort) (he : scriptMatchSource os ts cmd args text name = .error why) :
    ∃ e, why = .check e := by
  have h1 : cmd = "sed" → args.getD 1 "" ≠ "" := fun hc =>
    getD_mem_ne args h 1 (by have := hlen hc; omega)
  have h2 : cmd = "sed" → args.getD 2 "" ≠ "" := fun hc =>
    getD_mem_ne args h 2 (by have := hlen hc; omega)
  unfold scriptMatchSource at he
  dsimp only at he
  by_cases hsed : cmd = "sed"
  · subst hsed
    simp only [show ¬ ("sed" = "regexp" ∨ "sed" = "grep") by decide, if_false, if_true] at he
    rcases hr1 : atFile os ts (args.getD 1 "") with w1 | v1 <;>
    rcases hr2 : atFile os ts (args.getD 2 "") with w2 | v2 <;>
    simp only [hr1, hr2] at he <;> split_ifs at he <;> simp at he
    all_goals
      first
      | (subst he; exact atFile_error os ts _ (h1 rfl) _ hr1)
      | (subst he; exact atFile_error os ts _ (h2 rfl) _ hr2)
  · simp only [hsed, if_false] at he
    rcases hrf : os.ReadFile ts.world (ts.MkAbs os (args.getD 1 "")) with e | d <;>
    simp only [hrf] at he <;> split_ifs at he
    simp at he
    exact ⟨e, he.symm⟩

/-- Under `neg = 0` the last stage of `grep` and `sed` is the usage error. -/
theorem scriptMatchAssert_unnegated (ts : Script W) (n : Int) (cmd pattern : String) (re : Regexp)
    (text name replace : String) (h : cmd = "grep" ∨ cmd = "sed") :
    scriptMatchAssert ts 0 n cmd pattern re text name replace
      = .abort (.fatal (name ++ " does not support status checking")) ts := by
  rcases h with h | h <;> subst h <;> simp [scriptMatchAssert]

/-- A message that starts with `usage: ` is a usage error. -/
theorem isUsage_usage (x : String) : (Abort.fatal ("usage: " ++ x)).isUsage = true := by
  simp [Abort.isUsage, startsWith_append]

/-- A message about a bad count flag is a usage error. -/
theorem isUsage_count (x : String) : (Abort.fatal ("bad -count=: " ++ x)).isUsage = true := by
  simp [Abort.isUsage, startsWith, String.data_append]

/-- The message "does not support status checking" is a usage error. -/
theorem isUsage_status (x : String) :
    (Abort.fatal (x ++ " does not support status checking")).isUsage = true := by
  simp [Abort.isUsage, endsWith_append]

/-- Under `neg = 0`, `grep` and `sed` stop after the count flag has been read. -/
theorem scriptMatchPattern_unnegated_extract (os : OS W) (ts : Script W) (n : Int)
    (args : List String) (name : String) (hname : name = "grep" ∨ name = "sed") :
    ∃ why, scriptMatchPattern os ts 0 n args "" name = .abort why ts ∧
      ((∀ a ∈ args, a ≠ "") → why.isUsage = true ∨ ∃ e, why = .check e) := by
  unfold scriptMatchPattern
  dsimp only
  by_cases hlen : args.length ≠ (if name = "sed" then 3 else if name = "regexp" ∨ name = "grep" then 2 else 1)
  · rw [if_pos hlen]
    exact ⟨_, rfl, fun _ => Or.inl (by simp only [String.append_assoc]; exact isUsage_usage _)⟩
  · rw [if_neg hlen]
    have hpos : 0 < args.length := by
      have := not_not.mp hlen
      split_ifs at this <;> omega
    have hsed : name = "sed" → args.length = 3 := by
      intro h
      have := not_not.mp hlen
      rw [if_pos h] at this
      exact this
    have hres : ∀ why, (if args.headD "" = "stdout" then (Except.ok ts.stdout : Except Abort String)
        else if args.headD "" = "stderr" then .ok ts.stderr
        else atFile os ts (args.headD "")) = .error why →
        (∀ a ∈ args, a ≠ "") → ∃ e, why = .check e := by
      intro why he hall
      split_ifs at he
      have h0 : args.headD "" ≠ "" := by
        have := getD_mem_ne args hall 0 hpos
        cases args with
        | nil => simp at hpos
        | cons a t => simpa using this
      exact atFile_error os ts _ h0 _ he
    rcases hr : (if args.headD "" = "stdout" then (Except.ok ts.stdout : Except Abort String)
        else if args.headD "" = "stderr" then .ok ts.stderr
        else atFile os ts (args.headD "")) with why | pattern
    · exact ⟨why, rfl, fun hall => Or.inr (hres why hr hall)⟩
    · dsimp only
      rcases hc : os.Compile ("(?m)" ++ pattern) with err | re
      · exact ⟨_, rfl, fun _ => Or.inr ⟨_, rfl⟩⟩
      · dsimp only
        rcases hs : scriptMatchSource os ts name args "" name with why | ⟨text1, name1, replace⟩
        · exact ⟨why, rfl, fun hall =>
            Or.inr (scriptMatchSource_error os ts name args "" name hall hsed why hs)⟩
        · dsimp only
          rw [scriptMatchAssert_unnegated ts n name pattern re text1 name1 replace hname]
          exact ⟨_, rfl, fun _ => Or.inl (isUsage_status _)⟩

/-- Under `neg = 0`, `grep` and `sed` always stop, with the state unchanged. -/
theorem scriptMatch_unnegated_extract (os : OS W) (ts : Script W) (args : List String)
    (name : String) (hname : name = "grep" ∨ name = "sed") :
    ∃ why, scriptMatch os ts 0 args "" name = .abort why ts ∧
      ((∀ a ∈ args, a ≠ "") → why.isUsage = true ∨ ∃ e, why = .check e) := by
  unfold scriptMatch
  dsimp only
  simp only [ne_eq, not_true_eq_false, and_false, if_false]
  split
  · exact ⟨_, rfl, fun _ => Or.inl (isUsage_count _)⟩
  · rename_i n hn
    by_cases hc : hasCountFlag args = true
    · by_cases hn1 : n < 1
      · rw [if_pos ⟨hc, hn1⟩]
        exact ⟨_, rfl, fun _ => Or.inl (by decide)⟩
      · rw [if_neg (fun h => hn1 h.2), if_pos hc]
        obtain ⟨why, h1, h2⟩ := scriptMatchPattern_unnegated_extract os ts n args.tail name hname
        exact ⟨why, h1, fun hall => h2 (fun a ha => hall a (List.mem_of_mem_tail ha))⟩
    · rw [if_neg (fun h => hc h.1), if_neg hc]
      exact scriptMatchPattern_unnegated_extract os ts n args name hname

/-- C5, counterexample: `grep a missing` without negation stops in the failed
`Check` of the file read and `sed ( x stdout` in the failed `Check` of the
compilation of the pattern; these are not usage errors. -/
theorem cmdGrep_unnegated_not_usage :
    cmdGrep toyOS toyScript 0 ["a", "missing"]
      = .abort (.check "open /work/missing: no such file or directory") toyScript ∧
    cmdSed toyOS toyScript 0 ["(", "x", "stdout"]
      = .abort (.check "error parsing regexp: missing closing ): `(?m)(`") toyScript ∧
    (Abort.check "open /work/missing: no such file or directory").isUsage = false := by
  decide

/-! ## The matcher: extraction, substitution and assertions -/

/-- C6: the pattern `a` has the two matches `a`, `a` in the stdout text `abab`,
yet `! grep a stdout` stops in `Fatalf` "unexpected match" and leaves stdout
as it was, and `! grep -count=1 a stdout` stops on the count flag. -/
theorem cmdGrep_negated_match_stops :
    (toyOS.Compile "(?m)a").toOption.map (fun re => re.findAll "abab") = some ["a", "a"] ∧
    cmdGrep toyOS (toyWith "abab") 1 ["a", "stdout"]
      = .abort (.fatal "unexpected match for `a` found in grep: a")
          ((toyWith "abab").Logf "[grep]\nabab\n") ∧
    cmdGrep toyOS (toyWith "abab") 1 ["-count=1", "a", "stdout"]
      = .abort (.fatal "cannot use -count= with negated match") (toyWith "abab") := by
  decide

/-- C7: replacing `a` by `b` in `abab` gives `bbbb`, yet `! sed a b stdout`
stops in `Fatalf` "unexpected match"; and `! sed x y @golden`, whose file
holds `hello`, completes with the empty string in stdout, not the file text. -/
theorem cmdSed_negated_no_substitution :
    (toyOS.Compile "(?m)a").toOption.map (fun re => re.ReplaceAllString "abab" "b")
      = some "bbbb" ∧
    cmdSed toyOS (toyWith "abab") 1 ["a", "b", "stdout"]
      = .abort (.fatal "unexpected match for `a` found in sed: a") (toyWith "abab") ∧
    (toyOS.ReadFile (toyWith "abab").world "/work/golden").toOption = some "hello\n" ∧
    cmdSed toyOS (toyWith "abab") 1 ["x", "y", "@golden"]
      = .done (toyWith "") := by
  decide

/-- C8: the empty pattern compiles and matches the buffer `abab`, yet
`stdout ''` and `stderr ''` with `neg = 0` stop in a runtime panic where
`pattern[0]` is read. -/
theorem cmdStdout_empty_pattern_panics :
    (toyOS.Compile "(?m)").toOption.map (fun re => re.MatchString "abab") = some true ∧
    cmdStdout toyOS (toyWith "abab") 0 [""]
      = .abort (.panic "index out of range [0] with length 0") (toyWith "abab") ∧
    cmdStderr toyOS (toyWith "abab") 0 [""]
      = .abort (.panic "index out of range [0] with length 0") (toyWith "abab") := by
  decide

/-- C9: the empty pattern has exactly one match in the empty buffer, yet
`stdout -count=1 ''` stops in a runtime panic where `pattern[0]` is read. -/
theorem cmdStdout_count_empty_pattern_panics :
    (toyOS.Compile "(?m)").toOption.map (fun re => (re.FindAllString "" (-1)).length)
      = some 1 ∧
    cmdStdout toyOS (toyWith "") 0 ["-count=1", ""]
      = .abort (.panic "index out of range [0] with length 0") (toyWith "") := by
  decide

/-! ## The matcher: non-empty literal patterns -/

/-- A non-empty token that does not start with `@` is kept by `atFile`. -/
theorem atFile_literal (os : OS W) (ts : Script W) (p : String) (hne : p ≠ "")
    (hat : p.data.head? ≠ some '@') : atFile os ts p = .ok p := by
  unfold atFile
  split
  · rename_i hd
    exact absurd (String.ext hd) hne
  · rename_i c fname hd
    have hc : ¬ c = '@' := by
      intro h
      apply hat
      rw [hd, h]
      rfl
    simp [hc]

/-- For `stdout` and `stderr` with one non-empty literal pattern that compiles,
`scriptMatchPattern` is the assertion on the buffer passed in. -/
theorem scriptMatchPattern_buffer (os : OS W) (ts : Script W) (neg n : Int) (p text name : String)
    (re : Regexp) (hname : name = "stdout" ∨ name = "stderr") (hne : p ≠ "")
    (hat : p.data.head? ≠ some '@') (hout : p ≠ "stdout") (herr : p ≠ "stderr")
    (hre : os.Compile ("(?m)" ++ p) = .ok re) :
    scriptMatchPattern os ts neg n [p] text name
      = scriptMatchAssert ts neg n name p re text name "" := by
  have h1 : ¬ name = "sed" := by rcases hname with h | h <;> subst h <;> decide
  have h2 : ¬ (name = "regexp" ∨ name = "grep") := by
    rcases hname with h | h <;> subst h <;> decide
  simp [scriptMatchPattern, scriptMatchSource, h1, h2, hout, herr,
    atFile_literal os ts p hne hat, hre]

/-- The text after the `-count=` flag. -/
theorem dropBytes_append (s : String) : dropBytes ("-count=" ++ s) 7 = s := by
  simp [dropBytes, String.data_append]

/-- For `stdout` and `stderr` (`text` is the buffer the handler passes) with a
single non-empty literal pattern: with `neg = 0` the command completes iff the
expression matches the buffer, with `neg > 0` iff it does not, and the state
is left as it was. The empty pattern is excluded: see
`cmdStdout_empty_pattern_panics`. -/
theorem scriptMatch_literal (os : OS W) (ts : Script W) (neg : Int) (p text name : String)
    (re : Regexp) (hname : name = "stdout" ∨ name = "stderr")
    (hne : p ≠ "") (hat : p.data.head? ≠ some '@') (hout : p ≠ "stdout") (herr : p ≠ "stderr")
    (hcount : startsWith p "-count=" = false) (hre : os.Compile ("(?m)" ++ p) = .ok re) :
    (neg = 0 → (scriptMatch os ts neg [p] text name).completes = re.MatchString text) ∧
    (0 < neg → (scriptMatch os ts neg [p] text name).completes = !re.MatchString text) ∧
    (scriptMatch os ts neg [p] text name).state = ts := by
  have hflag : hasCountFlag [p] = false := hcount
  have hg : ¬ name = "grep" := by rcases hname with h | h <;> subst h <;> decide
  have hs : ¬ name = "sed" := by rcases hname with h | h <;> subst h <;> decide
  have heq : scriptMatch os ts neg [p] text name
      = scriptMatchAssert ts neg 0 name p re text name "" := by
    unfold scriptMatch
    simp [hflag, scriptMatchPattern_buffer os ts neg 0 p text name re hname hne hat hout herr hre]
  rw [heq]
  refine ⟨?_, ?_, ?_⟩
  · intro h0
    subst h0
    by_cases hm : re.MatchString text = true <;>
      simp [scriptMatchAssert, hm, hg, hs, Outcome.completes]
  · intro hpos
    by_cases hm : re.MatchString text = true <;>
      simp [scriptMatchAssert, hm, hpos, hg, hs, Outcome.completes]
  · unfold scriptMatchAssert
    simp only [hg, hs, decide_False, Bool.false_eq_true, if_false, false_or, lt_self_iff_false,
      gt_iff_lt]
    split_ifs <;> rfl

/-- For `stdout` and `stderr` with `-count=N`, `N ≥ 1`, and a non-empty literal
pattern: with `neg = 0` the command completes iff the expression has exactly
`N` matches in the buffer. -/
theorem scriptMatch_count (os : OS W) (ts : Script W) (s p text name : String) (N : Int)
    (re : Regexp) (hname : name = "stdout" ∨ name = "stderr")
    (hN : Atoi s = .ok N) (h1 : 1 ≤ N)
    (hne : p ≠ "") (hat : p.data.head? ≠ some '@') (hout : p ≠ "stdout") (herr : p ≠ "stderr")
    (hre : os.Compile ("(?m)" ++ p) = .ok re) :
    (scriptMatch os ts 0 ["-count=" ++ s, p] text name).completes
      = decide (((re.FindAllString text (-1)).length : Int) = N) := by
  have hflag : hasCountFlag ["-count=" ++ s, p] = true := startsWith_append _ _
  have hn1 : ¬ N < 1 := by omega
  have hpos : N > 0 := by omega
  have hg : ¬ name = "grep" := by rcases hname with h | h <;> subst h <;> decide
  have hs : ¬ name = "sed" := by rcases hname with h | h <;> subst h <;> decide
  have heq : scriptMatch os ts 0 ["-count=" ++ s, p] text name
      = scriptMatchAssert ts 0 N name p re text name "" := by
    unfold scriptMatch
    simp [hflag, dropBytes_append, hN, hn1,
      scriptMatchPattern_buffer os ts 0 N p text name re hname hne hat hout herr hre]
  rw [heq]
  unfold scriptMatchAssert
  by_cases hm : re.MatchString text = true
  · by_cases hc : ((re.FindAllString text (-1)).length : Int) = N
    · simp [hm, hpos, hc, hg, hs, Outcome.completes]
    · simp [hm, hpos, hc, hg, hs, Outcome.completes]
  · have hz : re.findAll text = [] := by
      simpa [Regexp.MatchString] using hm
    have hc : ¬ ((re.FindAllString text (-1)).length : Int) = N := by
      simp [Regexp.FindAllString, hz]
      omega
    simp [hm, hc, hg, hs, Outcome.completes]

/-! ## cmp -/

/-- Reading the key just written. -/
theorem GoMap.get_set_self (m : GoMap) (k v : String) : (GoMap.set m k v).get k = some v := by
  simp [GoMap.get, GoMap.set]

/-- Removing a key does not change the other keys. -/
theorem GoMap.get_filter_ne (m : GoMap) (k k1 : String) (h : k1 ≠ k) :
    GoMap.get (m.filter (fun kv => !(kv.1 == k))) k1 = GoMap.get m k1 := by
  unfold GoMap.get
  rw [List.find?_filter]
  congr 2
  funext kv
  by_cases hk : kv.1 = k1
  · have hne : ¬ kv.1 = k := fun h1 => h (hk.symm.trans h1)
    simp [hk, hne, h]
  · simp [hk]

/-- Writing a key does not change the other keys. -/
theorem GoMap.get_set_ne (m : GoMap) (k v k1 : String) (h : k1 ≠ k) :
    (GoMap.set m k v).get k1 = m.get k1 := by
  have := GoMap.get_filter_ne m k k1 h
  unfold GoMap.get at this ⊢
  unfold GoMap.set
  rw [List.find?_cons]
  have hk : ((k, v).1 == k1) = false := by simpa using fun h1 => h h1.symm
  rw [hk]
  exact this

/-- C10: `cmp name1 name2` with `neg = 0` and two readable sources. If the
texts are equal it returns with the state unchanged. If they differ, update
mode is on, `name1` is `stdout` or `stderr` and the absolute path of `name2`
is bound to a section in `scriptFiles`, it returns with the first text
recorded in `scriptUpdates` for that section and no other section changed.
In every other case with differing texts it stops in `Fatalf` "differ". -/
theorem cmdCmp_contract (os : OS W) (ts : Script W) (name1 name2 text1 text2 : String)
    (h1 : ts.ReadFile os name1 = .ok text1)
    (h2 : os.ReadFile ts.world (ts.MkAbs os name2) = .ok text2) :
    (text1 = text2 → cmdCmp os ts 0 [name1, name2] = .done ts) ∧
    (text1 ≠ text2 → ∀ scriptFile, ts.updateScripts = true →
      (name1 = "stdout" ∨ name1 = "stderr") →
      ts.scriptFiles.get (ts.MkAbs os name2) = some scriptFile →
      cmdCmp os ts 0 [name1, name2]
          = .done { ts with scriptUpdates := ts.scriptUpdates.set scriptFile text1 } ∧
        (ts.scriptUpdates.set scriptFile text1).get scriptFile = some text1 ∧
        ∀ k, k ≠ scriptFile → (ts.scriptUpdates.set scriptFile text1).get k
          = ts.scriptUpdates.get k) ∧
    (text1 ≠ text2 →
      ¬ (ts.updateScripts = true ∧ (name1 = "stdout" ∨ name1 = "stderr") ∧
          (ts.scriptFiles.get (ts.MkAbs os name2)).isSome = true) →
      cmdCmp os ts 0 [name1, name2]
        = .abort (.fatal (name1 ++ " and " ++ name2 ++ " differ"))
            (ts.Logf ("[diff -" ++ name1 ++ " +" ++ name2 ++ "]\n" ++ os.Diff text1 text2
              ++ "\n"))) := by
  refine ⟨?_, ?_, ?_⟩
  · intro he
    simp [cmdCmp, doCmdCmp, h1, h2, he]
  · intro hd scriptFile hu hb hs
    refine ⟨?_, GoMap.get_set_self _ _ _, fun k hk => GoMap.get_set_ne _ _ _ _ hk⟩
    simp [cmdCmp, doCmdCmp, h1, h2, hd, hu, hb, hs]
  · intro hd hn
    simp only [cmdCmp, doCmdCmp, h1, h2]
    simp only [ne_eq, not_true_eq_false, if_false, List.length_cons, List.length_nil,
      Bool.false_eq_true, Bool.not_false, true_and]
    rw [if_neg hd]
    by_cases hc : ts.updateScripts = true ∧ (name1 = "stdout" ∨ name1 = "stderr")
    · rcases hg : ts.scriptFiles.get (ts.MkAbs os name2) with _ | sf
      · simp [hc]
      · exact absurd ⟨hc.1, hc.2, by simp [hg]⟩ hn
    · rw [if_neg hc]

/-- Witness for C10: `cmp stdout golden` in the concrete system, with `bye` in
stdout, `hello` in the file and update mode off. -/
theorem cmdCmp_contract_witness :
    ((toyWith "bye\n").ReadFile toyOS "stdout" = .ok "bye\n" ∧
      toyOS.ReadFile (toyWith "bye\n").world ((toyWith "bye\n").MkAbs toyOS "golden")
        = .ok "hello\n") ∧
    cmdCmp toyOS (toyWith "bye\n") 0 ["stdout", "golden"]
      = .abort (.fatal "stdout and golden differ")
          ((toyWith "bye\n").Logf "[diff -stdout +golden]\n\n") :=
  ⟨⟨rfl, rfl⟩,
    (cmdCmp_contract toyOS (toyWith "bye\n") "stdout" "golden" "bye\n" "hello\n" rfl
      rfl).2.2 (by decide) (by decide)⟩

/-! ## Background commands: wait and skip -/

/-- Appending a text to the accumulator only when it is non-empty gives the
same concatenation as appending it always. -/
theorem join_acc (so rest : List String) (x : String) :
    String.join ((if x ≠ "" then so ++ [x] else so) ++ rest) = String.join (so ++ x :: rest) := by
  by_cases hx : x = ""
  · subst hx
    apply String.ext
    simp [String.data_join]
  · simp [hx]

/-- Joining and logging one background command changes the world and the log
only. -/
theorem joinLogged_fields (os : OS W) (ts : Script W) (bg : backgroundCmd) :
    (joinLogged os ts bg).world = (os.wait ts.world bg.cmd).1 ∧
    (joinLogged os ts bg).stdout = ts.stdout ∧ (joinLogged os ts bg).stderr = ts.stderr ∧
    (joinLogged os ts bg).background = ts.background ∧
    (joinLogged os ts bg).status = ts.status := by
  unfold joinLogged Script.Logf
  dsimp only
  split_ifs <;> exact ⟨rfl, rfl, rfl, rfl, rfl⟩

/-- One turn of the loop of `cmdWait`. -/
theorem waitLoop_cons (os : OS W) (ts : Script W) (so se : List String) (bg : backgroundCmd)
    (rest : List backgroundCmd) :
    waitLoop os ts so se (bg :: rest) =
      if (os.wait ts.world bg.cmd).2.success = true then
        if bg.neg > 0 then .abort (.fatal "unexpected command success") (joinLogged os ts bg)
        else waitLoop os (joinLogged os ts bg)
          (if (os.wait ts.world bg.cmd).2.stdout ≠ "" then
            so ++ [(os.wait ts.world bg.cmd).2.stdout] else so)
          (if (os.wait ts.world bg.cmd).2.stderr ≠ "" then
            se ++ [(os.wait ts.world bg.cmd).2.stderr] else se) rest
      else if os.expired (os.wait ts.world bg.cmd).1 = true then
        .abort (.fatal "test timed out while running command") (joinLogged os ts bg)
      else if bg.neg = 0 then .abort (.fatal "unexpected command failure") (joinLogged os ts bg)
      else waitLoop os (joinLogged os ts bg)
          (if (os.wait ts.world bg.cmd).2.stdout ≠ "" then
            so ++ [(os.wait ts.world bg.cmd).2.stdout] else so)
          (if (os.wait ts.world bg.cmd).2.stderr ≠ "" then
            se ++ [(os.wait ts.world bg.cmd).2.stderr] else se) rest := by
  rw [waitLoop]
  have hw := (joinLogged_fields os ts bg).1
  unfold joinLogged at hw ⊢
  dsimp only at hw ⊢
  rw [hw]

/-- When the loop of `cmdWait` runs to its end, the buffers are the accumulators
followed by what the joined commands wrote, in the order of the list. -/
theorem waitLoop_done (os : OS W) (l : List backgroundCmd) :
    ∀ (ts : Script W) (so se : List String) (ts1 : Script W),
      waitLoop os ts so se l = .done ts1 →
      ts1.stdout = String.join (so ++ (joinStates os ts.world l).map (fun st => st.stdout)) ∧
      ts1.stderr = String.join (se ++ (joinStates os ts.world l).map (fun st => st.stderr)) ∧
      ts1.background = [] ∧ ts1.world = joinWorld os ts.world l := by
  induction l with
  | nil =>
    intro ts so se ts1 h
    simp only [waitLoop, Outcome.done.injEq] at h
    subst h
    simp [joinStates, joinWorld]
  | cons bg rest ih =>
    intro ts so se ts1 h
    rw [waitLoop_cons] at h
    have hw := (joinLogged_fields os ts bg).1
    have step : waitLoop os (joinLogged os ts bg)
          (if (os.wait ts.world bg.cmd).2.stdout ≠ "" then
            so ++ [(os.wait ts.world bg.cmd).2.stdout] else so)
          (if (os.wait ts.world bg.cmd).2.stderr ≠ "" then
            se ++ [(os.wait ts.world bg.cmd).2.stderr] else se) rest = .done ts1 := by
      by_cases hs : (os.wait ts.world bg.cmd).2.success = true
      · rw [if_pos hs] at h
        by_cases hn : bg.neg > 0
        · rw [if_pos hn] at h
          cases h
        · rw [if_neg hn] at h
          exact h
      · rw [if_neg hs] at h
        by_cases he : os.expired (os.wait ts.world bg.cmd).1 = true
        · rw [if_pos he] at h
          cases h
        · rw [if_neg he] at h
          by_cases hn : bg.neg = 0
          · rw [if_pos hn] at h
            cases h
          · rw [if_neg hn] at h
            exact h
    obtain ⟨h1, h2, h3, h4⟩ := ih _ _ _ _ step
    rw [hw] at h1 h2 h4
    refine ⟨?_, ?_, h3, ?_⟩
    · rw [h1, join_acc]; rfl
    · rw [h2, join_acc]; rfl
    · rw [h4]; rfl

/-- C11: when `wait` completes on a registry `t1..tn`, it has joined exactly
those `n` tasks one after the other in registration order, stdout is the
concatenation of what they wrote to their private stdout in that order (an
empty text contributes nothing), stderr likewise, and the registry is empty.
The result is a function of the registration order and of the private texts
only: whenever what a task wrote does not depend on the moment it is joined,
the buffers are the concatenation over `ts.background`, whatever the system
and hence whatever the order in which the tasks finished. -/
theorem cmdWait_joins_in_order (os : OS W) (ts ts1 : Script W)
    (hdone : cmdWait os ts 0 [] = .done ts1) :
    (joinStates os ts.world ts.background).length = ts.background.length ∧
    ts1.world = joinWorld os ts.world ts.background ∧
    ts1.stdout = String.join ((joinStates os ts.world ts.background).map (fun st => st.stdout)) ∧
    ts1.stderr = String.join ((joinStates os ts.world ts.background).map (fun st => st.stderr)) ∧
    ts1.background = [] ∧
    (∀ out : Cmd → ProcState, (∀ w c, (os.wait w c).2 = out c) →
      ts1.stdout = String.join (ts.background.map (fun bg => (out bg.cmd).stdout)) ∧
      ts1.stderr = String.join (ts.background.map (fun bg => (out bg.cmd).stderr))) := by
  have hlen : ∀ (l : List backgroundCmd) (w : W), (joinStates os w l).length = l.length := by
    intro l
    induction l with
    | nil => intro w; rfl
    | cons bg rest ih => intro w; simp [joinStates, ih]
  have hmap : ∀ (out : Cmd → ProcState), (∀ w c, (os.wait w c).2 = out c) →
      ∀ (l : List backgroundCmd) (w : W), joinStates os w l = l.map (fun bg => out bg.cmd) := by
    intro out hout l
    induction l with
    | nil => intro w; rfl
    | cons bg rest ih => intro w; simp [joinStates, ih, hout]
  have hloop : waitLoop os ts [] [] ts.background = .done ts1 := by
    simpa [cmdWait] using hdone
  obtain ⟨h1, h2, h3, h4⟩ := waitLoop_done os ts.background ts [] [] ts1 hloop
  refine ⟨hlen _ _, h4, by simpa using h1, by simpa using h2, h3, ?_⟩
  intro out hout
  rw [h1, h2, hmap out hout]
  simp only [List.nil_append, List.map_map]
  exact ⟨rfl, rfl⟩

/-- Witness for C11: `wait` after `echo a &` and `echo b &` in the concrete
system. -/
theorem cmdWait_joins_in_order_witness :
    cmdWait toyOS toyTasks 0 [] = .done (cmdWait toyOS toyTasks 0 []).state ∧
    (cmdWait toyOS toyTasks 0 []).state.stdout = "a\nb\n" ∧
    (cmdWait toyOS toyTasks 0 []).state.background = [] :=
  ⟨by decide,
    (cmdWait_joins_in_order toyOS toyTasks _ (by decide)).2.2.1.trans (by decide),
    (cmdWait_joins_in_order toyOS toyTasks _ (by decide)).2.2.2.2.1⟩

/-- Handler `cmdSkip` with at most one argument: interrupt, join as `wait` does,
then skip. -/
theorem cmdSkip_eq (os : OS W) (ts : Script W) (args : List String) (hargs : args.length ≤ 1) :
    cmdSkip os ts 0 args =
      match cmdWait os (interruptAll os ts) 0 [] with
      | .done ts2 => .abort (.skip args.head?) ts2
      | stopped => stopped := by
  have h1 : ¬ args.length > 1 := by omega
  unfold cmdSkip interruptAll
  simp only [ne_eq, not_true_eq_false, if_false, h1]
  rcases cmdWait os _ 0 [] with ts2 | ⟨why, ts2⟩
  · match args, hargs with
    | [], _ => rfl
    | [m], _ => rfl
  · rfl

/-- C17, counterexample: a background `sleep 5` launched without negation
would exit successfully, and `wait` alone completes; `skip later` interrupts
it and then stops in `Fatalf` "unexpected command failure", not in a skip. -/
theorem cmdSkip_interrupted_task_fails :
    (toyOS.wait (toySleeper 0).world (Cmd.mk 3 "sleep" ["5"])).2.success = true ∧
    (cmdWait toyOS (toySleeper 0) 0 []).completes = true ∧
    cmdSkip toyOS (toySleeper 0) 0 ["later"]
      = .abort (.fatal "unexpected command failure")
          (joinLogged toyOS (interruptAll toyOS (toySleeper 0))
            (backgroundCmd.mk (Cmd.mk 3 "sleep" ["5"]) 0)) := by
  decide

/-- C17, amended: `skip` with `neg = 0` and at most one argument interrupts
every registered task and then runs `wait`. If `wait` completes, the run ends
skipped, with the message when one is given, and the registry is empty. If
`wait` stops, `skip` stops the same way: in particular when the first task was
launched without negation and exits unsuccessfully after the interruption
(deadline not expired), `skip` stops in `Fatalf` "unexpected command failure". -/
theorem cmdSkip_joins (os : OS W) (ts : Script W) (args : List String)
    (hargs : args.length ≤ 1) :
    (∀ ts2, cmdWait os (interruptAll os ts) 0 [] = .done ts2 →
      cmdSkip os ts 0 args = .abort (.skip args.head?) ts2 ∧ ts2.background = []) ∧
    (∀ why ts2, cmdWait os (interruptAll os ts) 0 [] = .abort why ts2 →
      cmdSkip os ts 0 args = .abort why ts2) ∧
    (∀ bg rest, ts.background = bg :: rest → bg.neg = 0 →
      (os.wait (interruptAll os ts).world bg.cmd).2.success = false →
      os.expired (os.wait (interruptAll os ts).world bg.cmd).1 = false →
      cmdSkip os ts 0 args
        = .abort (.fatal "unexpected command failure") (joinLogged os (interruptAll os ts) bg)) := by
  refine ⟨?_, ?_, ?_⟩
  · intro ts2 h
    rw [cmdSkip_eq os ts args hargs, h]
    have hloop : waitLoop os (interruptAll os ts) [] [] (interruptAll os ts).background
        = .done ts2 := by simpa [cmdWait] using h
    exact ⟨rfl, (waitLoop_done os _ _ [] [] ts2 hloop).2.2.1⟩
  · intro why ts2 h
    rw [cmdSkip_eq os ts args hargs, h]
  · intro bg rest hb hn hs he
    have hw : cmdWait os (interruptAll os ts) 0 []
        = .abort (.fatal "unexpected command failure") (joinLogged os (interruptAll os ts) bg) := by
      have hb2 : (interruptAll os ts).background = bg :: rest := hb
      simp only [cmdWait, ne_eq, not_true_eq_false, if_false, List.length_nil, gt_iff_lt,
        lt_self_iff_false, hb2]
      rw [waitLoop_cons]
      simp [hs, he, hn]
    rw [cmdSkip_eq os ts args hargs, hw]

/-- Witness for C17: `skip later` with one background `sleep 5` that was
launched negated, in the concrete system. -/
theorem cmdSkip_joins_witness :
    ["later"].length ≤ 1 ∧
    cmdSkip toyOS (toySleeper 1) 0 ["later"]
      = .abort (.skip (some "later")) (cmdWait toyOS (interruptAll toyOS (toySleeper 1)) 0 []).state ∧
    (cmdWait toyOS (interruptAll toyOS (toySleeper 1)) 0 []).state.background = [] :=
  ⟨by decide, (cmdSkip_joins toyOS (toySleeper 1) ["later"] (by decide)).1 _ (by decide)⟩

/-! ## exec, call, http: the deadline and the background branch -/

/-- C12: for a synchronous `exec`, for `call` and for `http`, and for every
value of the negation flag, an operation that returns an error while the
deadline has expired stops the handler in `Fatalf` with a message that
contains "timed out". -/
theorem timeout_takes_precedence (os : OS W) (ts : Script W) (neg : Int) (prog : String)
    (rest : List String) :
    (∀ e, (prog :: rest).getLast? ≠ some "&" →
      (os.run ts.world (ts.req prog rest)).2.err = some e →
      os.expired (os.run ts.world (ts.req prog rest)).1 = true →
      ∃ ts1, cmdExec os ts neg (prog :: rest)
        = .abort (.fatal "test timed out while running command") ts1) ∧
    (∀ e, (os.call ts.world (ts.req prog rest)).2.err = some e →
      os.expired (os.call ts.world (ts.req prog rest)).1 = true →
      ∃ ts1, cmdCall os ts neg (prog :: rest)
        = .abort (.fatal "test timed out while running command") ts1) ∧
    (∀ e, (os.http ts.world (ts.req "" (prog :: rest))).2.err = some e →
      os.expired (os.http ts.world (ts.req "" (prog :: rest))).1 = true →
      ∃ ts1, cmdHttp os ts neg (prog :: rest)
        = .abort (.fatal "test timed out while making http request") ts1) ∧
    "timed out".data <:+: "test timed out while running command".data ∧
    "timed out".data <:+: "test timed out while making http request".data := by
  refine ⟨?_, ?_, ?_, ?_, ?_⟩
  · intro e hsync he hx
    rw [cmdExec_sync os ts neg prog rest hsync]
    simp [execForegroundLine, Script.exec, he, execTail, hx]
  · intro e he hx
    simp [cmdCall, Script.call, he, hx]
  · intro e he hx
    simp [cmdHttp, Script.http, he, hx]
  · decide
  · decide

/-- Witness for C12: `! exec false` after the deadline in the concrete system. -/
theorem timeout_takes_precedence_witness :
    (["false"].getLast? ≠ some "&" ∧
      (toyOS.run toyExpired.world (toyExpired.req "false" [])).2.err = some "exit status 1" ∧
      toyOS.expired (toyOS.run toyExpired.world (toyExpired.req "false" [])).1 = true) ∧
    ∃ ts1, cmdExec toyOS toyExpired 1 ["false"]
      = .abort (.fatal "test timed out while running command") ts1 :=
  ⟨⟨by decide, rfl, rfl⟩,
    (timeout_takes_precedence toyOS toyExpired 1 "false" []).1 _ (by decide) rfl rfl⟩

/-- Background launch when the monitor has not assigned an error: `exec prog
[args...] &` whose launch succeeds, and whose monitor goroutine has not stored
a non-nil error in `err` by the time the closing block reads it, returns
without a fatal for every negation value, with empty stdout and stderr and
with the registry extended at its end by exactly one task that carries the
`neg` of the line; `exec` without arguments and `exec &` stop in the usage
`Fatalf` with the state unchanged. -/
theorem cmdExec_background (os : OS W) (ts : Script W) (neg : Int) (prog : String)
    (mid : List String) :
    (∀ cmd, (os.start ts.world (ts.req prog mid)).2 = .ok cmd →
      (∀ code e, os.monitorProgress (os.start ts.world (ts.req prog mid)).1 cmd
        ≠ .finished code (some e)) →
      ∃ ts1, cmdExec os ts neg (prog :: (mid ++ ["&"])) = .done ts1 ∧
        ts1.stdout = "" ∧ ts1.stderr = "" ∧
        ts1.background = ts.background ++ [backgroundCmd.mk cmd neg]) ∧
    cmdExec os ts neg [] = .abort (.fatal "usage: exec program [args...] [&]") ts ∧
    cmdExec os ts neg ["&"] = .abort (.fatal "usage: exec program [args...] [&]") ts := by
  refine ⟨?_, ?_, ?_⟩
  · intro cmd hc hp
    have hlast : (prog :: (mid ++ ["&"])).getLast? = some "&" := by
      rw [← List.cons_append, List.getLast?_append]
      simp
    have hne : ¬ ((prog :: (mid ++ ["&"])).length < 1 ∨
        ((prog :: (mid ++ ["&"])).length = 1 ∧ (prog :: (mid ++ ["&"])).head? = some "&")) := by
      simp
    unfold cmdExec
    rw [if_neg hne, if_pos hlast]
    rcases hm : os.monitorProgress (os.start ts.world (ts.req prog mid)).1 cmd
      with _ | code | ⟨code, _ | e⟩
    · simp [execBackgroundLine, Script.execBackground, hc, hm, execTail]
    · simp [execBackgroundLine, Script.execBackground, hc, hm, execTail, monitorComplete]
    · simp [execBackgroundLine, Script.execBackground, hc, hm, execTail, monitorComplete]
    · exact absurd hm (hp code e)
  · simp [cmdExec]
  · simp [cmdExec]

/-- The line `! exec sleep 5 &` in the concrete system, where the monitor is
still waiting when the closing block runs. -/
theorem cmdExec_background_witness :
    (toyOS.start toyScript.world (toyScript.req "sleep" ["5"])).2.toOption
      = some (Cmd.mk 1 "sleep" ["5"]) ∧
    ∃ ts1, cmdExec toyOS toyScript 1 ["sleep", "5", "&"] = .done ts1 ∧
      ts1.stdout = "" ∧ ts1.stderr = "" ∧
      ts1.background = toyScript.background ++ [backgroundCmd.mk (Cmd.mk 1 "sleep" ["5"]) 1] :=
  ⟨by decide,
    (cmdExec_background toyOS toyScript 1 "sleep" ["5"]).1 _ rfl (fun _ _ h => MonitorProgress.noConfusion h)⟩

/-- C16, counterexample: the completion step of the monitor, for a process that
exits with code 1, changes the status field of a state whose status was 0. -/
theorem monitorComplete_writes_status :
    (monitorComplete toyScript 1).status = 1 ∧ toyScript.status = 0 := by
  decide

/-- C16, amended: the completion step of the monitor started by `exec ... &`
leaves stdout and stderr unchanged and stores the exit code of the process in
status; no other field changes. -/
theorem monitorComplete_frame (ts : Script W) (exitCode : Int) :
    (monitorComplete ts exitCode).stdout = ts.stdout ∧
    (monitorComplete ts exitCode).stderr = ts.stderr ∧
    (monitorComplete ts exitCode).status = exitCode ∧
    monitorComplete ts exitCode = { ts with status := exitCode } :=
  ⟨rfl, rfl, rfl, rfl⟩

/-! ## The matcher: resolution of the tokens and the count flag -/

/-- The pattern switch of `scriptMatch` on a non-empty token agrees with the
resolution rule of the specification. -/
theorem atFile_eq_spec (os : OS W) (ts : Script W) (tok : String) (hne : tok ≠ "") :
    (if tok = "stdout" then (Except.ok ts.stdout : Except Abort String)
      else if tok = "stderr" then .ok ts.stderr else atFile os ts tok) =
      match specResolve os ts tok with
      | .ok p => .ok p
      | .error e => .error (.check e) := by
  unfold specResolve
  by_cases h1 : tok = "stdout"
  · simp [h1]
  · by_cases h2 : tok = "stderr"
    · simp [h2]
    · simp only [h1, h2, if_false]
      unfold atFile
      rcases hd : tok.data with _ | ⟨c, f⟩
      · exact absurd (String.ext hd) hne
      · dsimp only
        by_cases hc : c = '@'
        · rw [if_pos hc, if_pos hc]
        · rw [if_neg hc, if_neg hc]

/-- C13, counterexample: the rule of the specification resolves `@golden` to
the content of the file `golden`, but `regexp hello @golden` and
`! grep bye @golden` try to read a file named `@golden`; and the content token
`golden` is not matched verbatim (`hello` does not match the text `golden`):
the file of that name is read and `regexp hello golden` completes. -/
theorem cmdRegexp_content_is_a_path :
    (specResolve toyOS toyScript "@golden").toOption = some "hello\n" ∧
    cmdRegexp toyOS toyScript 0 ["hello", "@golden"]
      = .abort (.check "open /work/@golden: no such file or directory") toyScript ∧
    (toyOS.Compile "(?m)hello").toOption.map (fun re => re.MatchString "golden") = some false ∧
    cmdRegexp toyOS toyScript 0 ["hello", "golden"] = .done toyScript ∧
    cmdGrep toyOS toyScript 1 ["bye", "@golden"]
      = .abort (.check "open /work/@golden: no such file or directory") toyScript := by
  decide

/-- C13, amended: the pattern token is resolved uniformly for every command
name: `stdout` and `stderr` are the capture buffers, `@f` is the content of
the file `f`, any other non-empty token is the pattern itself, and the
resolved text is what is compiled and asserted with. For `stdout` and `stderr`
the text matched against is the buffer the handler passes. For `regexp` and
`grep` the content token `stdout` or `stderr` (also with `$WORK/` in front) is
the capture buffer and any other content token, with or without a leading
`@`, is the path of the file whose content is matched against. For `sed` the
source token `stdout` or `stderr` is the capture buffer. -/
theorem token_resolution (os : OS W) (ts : Script W) (neg n : Int) (args : List String)
    (text name : String) (hlen : args.length = wantArgs name) (hne : args.headD "" ≠ "") :
    (∀ e, specResolve os ts (args.headD "") = .error e →
      scriptMatchPattern os ts neg n args text name = .abort (.check e) ts) ∧
    (∀ pattern re text1 name1 replace, specResolve os ts (args.headD "") = .ok pattern →
      os.Compile ("(?m)" ++ pattern) = .ok re →
      scriptMatchSource os ts name args text name = .ok (text1, name1, replace) →
      scriptMatchPattern os ts neg n args text name
        = scriptMatchAssert ts neg n name pattern re text1 name1 replace) ∧
    ((name = "stdout" ∨ name = "stderr") →
      scriptMatchSource os ts name args text name = .ok (text, name, "")) ∧
    ((name = "regexp" ∨ name = "grep") →
      scriptMatchSource os ts name args text name =
        if args.getD 1 "" = "stdout" ∨ args.getD 1 "" = "$WORK/stdout" then
          .ok (ts.stdout, name, "")
        else if args.getD 1 "" = "stderr" ∨ args.getD 1 "" = "$WORK/stderr" then
          .ok (ts.stderr, name, "")
        else
          match os.ReadFile ts.world (ts.MkAbs os (args.getD 1 "")) with
          | .error e => .error (.check e)
          | .ok data => .ok (data, args.getD 1 "", "")) ∧
    (name = "sed" → ∀ r, scriptMatchSource os ts name args text name = .ok r →
      (args.getD 2 "" = "stdout" → r.1 = ts.stdout) ∧
      (args.getD 2 "" = "stderr" → r.1 = ts.stderr)) := by
  have hlen2 : ¬ args.length ≠
      (if name = "sed" then 3 else if name = "regexp" ∨ name = "grep" then 2 else 1) := by
    simpa [wantArgs] using hlen
  refine ⟨?_, ?_, ?_, ?_, ?_⟩
  · intro e he
    unfold scriptMatchPattern
    dsimp only
    rw [if_neg hlen2, atFile_eq_spec os ts _ hne, he]
  · intro pattern re text1 name1 replace hp hc hs
    unfold scriptMatchPattern
    dsimp only
    rw [if_neg hlen2, atFile_eq_spec os ts _ hne, hp]
    dsimp only
    rw [hc]
    dsimp only
    rw [hs]
  · intro h
    have h1 : ¬ name = "sed" := by rcases h with h | h <;> subst h <;> decide
    have h2 : ¬ (name = "regexp" ∨ name = "grep") := by
      rcases h with h | h <;> subst h <;> decide
    simp [scriptMatchSource, h1, h2]
  · intro h
    have h1 : ¬ name = "sed" := by rcases h with h | h <;> subst h <;> decide
    unfold scriptMatchSource
    dsimp only
    rw [if_pos h]
    split_ifs with ha hb
    · simp [h1]
    · simp [h1]
    · rcases os.ReadFile ts.world (ts.MkAbs os (args.getD 1 "")) with e | d <;> simp [h1]
  · intro h r hr
    subst h
    unfold scriptMatchSource at hr
    simp only [show ¬ ("sed" = "regexp" ∨ "sed" = "grep") by decide, if_false, if_true] at hr
    constructor
    · intro hsrc
      simp only [hsrc, true_or, if_true] at hr
      split at hr
      · cases hr
      · cases hr; rfl
    · intro hsrc
      simp only [hsrc, true_or, if_true, show ¬ ("stderr" = "stdout" ∨ "stderr" = "$WORK/stdout") by decide, if_false] at hr
      split at hr
      · cases hr
      · cases hr; rfl

/-- Witness for C13: the content token of `regexp hello golden` in the concrete
system. -/
theorem token_resolution_witness :
    (["hello", "golden"].length = wantArgs "regexp" ∧ ["hello", "golden"].headD "" ≠ "") ∧
    (scriptMatchSource toyOS toyScript "regexp" ["hello", "golden"] "" "regexp").toOption
      = some ("hello\n", "golden", "") := by
  refine ⟨⟨by decide, by decide⟩, ?_⟩
  rw [(token_resolution toyOS toyScript 0 0 ["hello", "golden"] "" "regexp" (by decide)
    (by decide)).2.2.2.1 (Or.inl rfl)]
  decide

/-- The count flag in `scriptMatch`: fatal with a non-zero negation flag, with
text that `Atoi` rejects, and with a number below 1. -/
theorem scriptMatch_count_flag (os : OS W) (ts : Script W) (neg : Int) (a : String)
    (rest : List String) (text name : String) (hflag : startsWith a "-count=" = true) :
    (neg ≠ 0 → scriptMatch os ts neg (a :: rest) text name
      = .abort (.fatal "cannot use -count= with negated match") ts) ∧
    (∀ e, Atoi (dropBytes a 7) = .error e →
      ∃ msg, scriptMatch os ts neg (a :: rest) text name = .abort (.fatal msg) ts) ∧
    (∀ n, Atoi (dropBytes a 7) = .ok n → n < 1 →
      ∃ msg, scriptMatch os ts neg (a :: rest) text name = .abort (.fatal msg) ts) := by
  have hf : hasCountFlag (a :: rest) = true := hflag
  refine ⟨?_, ?_, ?_⟩
  · intro hn
    simp [scriptMatch, hf, hn]
  · intro e he
    by_cases hn : neg = 0
    · exact ⟨"bad -count=: " ++ e, by simp [scriptMatch, hf, hn, he]⟩
    · exact ⟨"cannot use -count= with negated match", by simp [scriptMatch, hf, hn]⟩
  · intro n he hlt
    by_cases hn : neg = 0
    · exact ⟨"bad -count=: must be at least 1", by simp [scriptMatch, hf, hn, he, hlt]⟩
    · exact ⟨"cannot use -count= with negated match", by simp [scriptMatch, hf, hn]⟩

/-- C19: for each of `stdout`, `stderr`, `regexp`, `grep` and `sed`, if the
first argument begins with `-count=`: a non-zero negation flag stops the
command in `Fatalf` whatever the remaining arguments are, and text after
`-count=` that is not a decimal integer, or is an integer below 1, stops it in
`Fatalf` for every negation value; the state is unchanged. -/
theorem count_flag_errors (os : OS W) (ts : Script W) (neg : Int) (a : String)
    (rest : List String) (hflag : startsWith a "-count=" = true) :
    ∀ cmd ∈ [cmdStdout os, cmdStderr os, cmdRegexp os, cmdGrep os, cmdSed os],
      (neg ≠ 0 → cmd ts neg (a :: rest)
        = .abort (.fatal "cannot use -count= with negated match") ts) ∧
      (∀ e, Atoi (dropBytes a 7) = .error e →
        ∃ msg, cmd ts neg (a :: rest) = .abort (.fatal msg) ts) ∧
      (∀ n, Atoi (dropBytes a 7) = .ok n → n < 1 →
        ∃ msg, cmd ts neg (a :: rest) = .abort (.fatal msg) ts) := by
  intro cmd hcmd
  simp only [List.mem_cons, List.mem_singleton, List.not_mem_nil, or_false] at hcmd
  rcases hcmd with h | h | h | h | h <;> subst h
  · exact scriptMatch_count_flag os ts neg a rest ts.stdout "stdout" hflag
  · exact scriptMatch_count_flag os ts neg a rest ts.stderr "stderr" hflag
  · exact scriptMatch_count_flag os ts neg a rest "" "regexp" hflag
  · exact scriptMatch_count_flag os ts neg a rest "" "grep" hflag
  · exact scriptMatch_count_flag os ts neg a rest "" "sed" hflag

/-- Witness for C19: `! grep -count=0 a stdout` and `stdout -count=0 a` in the
concrete system. -/
theorem count_flag_errors_witness :
    startsWith "-count=0" "-count=" = true ∧
    cmdGrep toyOS toyScript 1 ["-count=0", "a", "stdout"]
      = .abort (.fatal "cannot use -count= with negated match") toyScript ∧
    ∃ msg, cmdStdout toyOS toyScript 0 ["-count=0", "a"] = .abort (.fatal msg) toyScript :=
  ⟨by decide,
    (count_flag_errors toyOS toyScript 1 "-count=0" ["a", "stdout"] (by decide) (cmdGrep toyOS)
      (by simp)).1 (by decide),
    (count_flag_errors toyOS toyScript 0 "-count=0" ["a"] (by decide) (cmdStdout toyOS)
      (by simp)).2.2 0 rfl (by decide)⟩

/-! ## cmpenv -/

/-- C15, counterexample: in update mode, with `bye` in stdout and `hello` in
the archive file `golden`, `cmp stdout golden` records the update and returns,
while `cmpenv stdout golden` stops in `Fatalf` "differ". -/
theorem cmdCmpenv_never_updates :
    cmdCmp toyOS (toyUpdating "bye\n") 0 ["stdout", "golden"]
      = .done { toyUpdating "bye\n" with scriptUpdates := [("golden", "bye\n")] } ∧
    cmdCmpenv toyOS (toyUpdating "bye\n") 0 ["stdout", "golden"]
      = .abort (.fatal "stdout and golden differ")
          ((toyUpdating "bye\n").Logf "[diff -stdout +golden]\n\n") := by
  decide

/-- C15, amended: `cmpenv` on two readable sources whose texts differ after the
expansion of the second stops in `Fatalf` "differ" in every case, whatever
update mode, the first argument and the bindings of `scriptFiles` are; the
state at the stop differs from the initial one by the logged diff only. -/
theorem cmdCmpenv_mismatch (os : OS W) (ts : Script W) (name1 name2 text1 text2 : String)
    (h1 : ts.ReadFile os name1 = .ok text1)
    (h2 : os.ReadFile ts.world (ts.MkAbs os name2) = .ok text2)
    (hd : text1 ≠ os.expand ts.envMap text2) :
    cmdCmpenv os ts 0 [name1, name2]
      = .abort (.fatal (name1 ++ " and " ++ name2 ++ " differ"))
          (ts.Logf ("[diff -" ++ name1 ++ " +" ++ name2 ++ "]\n"
            ++ os.Diff text1 (os.expand ts.envMap text2) ++ "\n")) := by
  simp [cmdCmpenv, doCmdCmp, h1, h2, hd]

/-- Witness for C15: `cmpenv stdout golden` in update mode in the concrete
system. -/
theorem cmdCmpenv_mismatch_witness :
    ((toyUpdating "bye\n").ReadFile toyOS "stdout" = .ok "bye\n" ∧
      toyOS.ReadFile (toyUpdating "bye\n").world ((toyUpdating "bye\n").MkAbs toyOS "golden")
        = .ok "hello\n" ∧
      "bye\n" ≠ toyOS.expand (toyUpdating "bye\n").envMap "hello\n") ∧
    cmdCmpenv toyOS (toyUpdating "bye\n") 0 ["stdout", "golden"]
      = .abort (.fatal "stdout and golden differ")
          ((toyUpdating "bye\n").Logf "[diff -stdout +golden]\n\n") :=
  ⟨⟨rfl, rfl, by decide⟩,
    cmdCmpenv_mismatch toyOS (toyUpdating "bye\n") "stdout" "golden" "bye\n" "hello\n" rfl rfl
      (by decide)⟩

/-! ## env and status -/

/-- The first `=` of `K=V` when `K` has none. -/
theorem cutEq_append (k v : List Char) (hk : '=' ∉ k) : cutEq (k ++ '=' :: v) = some (k, v) := by
  induction k with
  | nil => simp [cutEq]
  | cons c cs ih =>
    have hc : ¬ c = '=' := fun h => hk (by simp [h])
    have hcs : '=' ∉ cs := fun h => hk (by simp [h])
    simp [cutEq, hc, ih hcs]

/-- A text without `=` has no index. -/
theorem cutEq_none (k : List Char) (hk : '=' ∉ k) : cutEq k = none := by
  induction k with
  | nil => rfl
  | cons c cs ih =>
    have hc : ¬ c = '=' := fun h => hk (by simp [h])
    have hcs : '=' ∉ cs := fun h => hk (by simp [h])
    simp [cutEq, hc, ih hcs]

/-- C18: `env FOO=` stops in a runtime panic where `v[0]` is read, and so does
`env A=b FOO=` after `A` has been set. -/
theorem cmdEnv_empty_value_panics :
    cmdEnv toyOS toyScript 0 ["FOO="]
      = .abort (.panic "index out of range [0] with length 0") toyScript ∧
    cmdEnv toyOS toyScript 0 ["A=b", "FOO="]
      = .abort (.panic "index out of range [0] with length 0") (toyScript.Setenv toyOS "A" "b") := by
  decide

/-- For an argument `K=V` with a non-empty `V`, `cmdEnv` sets `K` to the stdout
capture for `@stdout`, to the stderr capture for `@stderr`, to the content of
`f` for `@f`, and to `V` otherwise; an argument without `=` sets nothing and
logs `NAME=<value>`. The empty `V` is excluded: see
`cmdEnv_empty_value_panics`. -/
theorem cmdEnv_sets (os : OS W) (ts : Script W) (K V : String) (hK : '=' ∉ K.data)
    (hV : V ≠ "") :
    (V = "@stdout" → cmdEnv os ts 0 [K ++ "=" ++ V] = .done (ts.Setenv os K ts.stdout)) ∧
    (V = "@stderr" → cmdEnv os ts 0 [K ++ "=" ++ V] = .done (ts.Setenv os K ts.stderr)) ∧
    (∀ f data, V = "@" ++ f → f ≠ "stdout" → f ≠ "stderr" →
      os.ReadFile ts.world (ts.MkAbs os f) = .ok data →
      cmdEnv os ts 0 [K ++ "=" ++ V] = .done (ts.Setenv os K data)) ∧
    (V.data.head? ≠ some '@' → cmdEnv os ts 0 [K ++ "=" ++ V] = .done (ts.Setenv os K V)) ∧
    cmdEnv os ts 0 [K] = .done (ts.Logf (K ++ "=" ++ ts.Getenv os K ++ "\n")) := by
  have hcut : cutEq (K ++ "=" ++ V).data = some (K.data, V.data) := by
    have := cutEq_append K.data V.data hK
    simpa [String.data_append] using this
  have hbase : cmdEnv os ts 0 [K ++ "=" ++ V] = envLoop os ts [K ++ "=" ++ V] := by
    simp [cmdEnv]
  refine ⟨?_, ?_, ?_, ?_, ?_⟩
  · intro h
    subst h
    rw [hbase, envLoop, hcut]
    simp [envLoop]
  · intro h
    subst h
    rw [hbase, envLoop, hcut]
    simp [envLoop]
  · intro f data h h1 h2 hr
    subst h
    have hf1 : ¬ f.data = "stdout".data := fun h => h1 (String.ext h)
    have hf2 : ¬ f.data = "stderr".data := fun h => h2 (String.ext h)
    rw [hbase, envLoop, hcut]
    simp [envLoop, String.data_append, hf1, hf2, hr]
  · intro h
    rw [hbase, envLoop, hcut]
    rcases hd : V.data with _ | ⟨c, r⟩
    · exact absurd (String.ext hd) hV
    · have hc : ¬ c = '@' := by
        intro hc
        apply h
        rw [hd, hc]
        rfl
      have hv : (⟨c :: r⟩ : String) = V := by rw [← hd]
      simp [envLoop, hc, hv]
  · simp [cmdEnv, envLoop, cutEq_none K.data hK]

/-- C20: `status` with exactly one argument never fails under `neg < 0`,
completes under `neg = 0` iff the argument parses as a decimal integer equal
to the recorded status, and completes under `neg > 0` iff it parses as an
integer different from the recorded status; with any other number of
arguments it stops in the usage `Fatalf` for every `neg`; it never changes the
state. -/
theorem cmdStatus_three_way (ts : Script W) (neg : Int) (a : String) (args : List String) :
    (neg < 0 → cmdStatus ts neg [a] = .done ts) ∧
    (neg = 0 → ((cmdStatus ts neg [a]).completes = true ↔ Atoi a = .ok ts.status)) ∧
    (0 < neg → ((cmdStatus ts neg [a]).completes = true ↔
      ∃ code, Atoi a = .ok code ∧ code ≠ ts.status)) ∧
    (args.length ≠ 1 → ∀ m, cmdStatus ts m args = .abort (.fatal "usage: status <int>") ts) ∧
    (cmdStatus ts neg args).state = ts := by
  refine ⟨?_, ?_, ?_, ?_, ?_⟩
  · intro h
    simp [cmdStatus, h]
  · intro h
    subst h
    rcases hp : Atoi a with e | code
    · simp [cmdStatus, hp, Outcome.completes]
    · by_cases hc : ts.status = code
      · simp [cmdStatus, hp, hc, Outcome.completes]
      · have hc2 : ¬ code = ts.status := fun h => hc h.symm
        simp [cmdStatus, hp, hc, hc2, Outcome.completes]
  · intro h
    have h1 : ¬ neg < 0 := by omega
    have h2 : ¬ neg = 0 := by omega
    rcases hp : Atoi a with e | code
    · simp [cmdStatus, hp, h1, Outcome.completes]
    · by_cases hc : ts.status = code
      · simp [cmdStatus, hp, hc, h1, h, Outcome.completes]
      · have hc2 : ¬ code = ts.status := fun h => hc h.symm
        simp [cmdStatus, hp, hc, hc2, h1, h2, h, Outcome.completes]
  · intro hl m
    match args, hl with
    | [], _ => rfl
    | [x], hl => simp at hl
    | _ :: _ :: _, _ => rfl
  · unfold cmdStatus
    split
    · split_ifs
      · rfl
      · split
        · rfl
        · split_ifs <;> rfl
    · rfl

/-- Witness for C20: `? status x`, `status 0` and `! status 0` on a state with
status 0. -/
theorem cmdStatus_three_way_witness :
    (-1 : Int) < 0 ∧ cmdStatus toyScript (-1) ["x"] = .done toyScript ∧
    ((cmdStatus toyScript 0 ["0"]).completes = true ↔ Atoi "0" = .ok toyScript.status) ∧
    (cmdStatus toyScript 0 ["0"]).completes = true ∧
    (cmdStatus toyScript 1 ["0"]).completes = false :=
  ⟨by decide, (cmdStatus_three_way toyScript (-1) "x" []).1 (by decide),
    (cmdStatus_three_way toyScript 0 "0" []).2.1 rfl, by decide, by decide⟩

/-! ## wait: the task that decides -/

/-- The loop of `cmdWait` stops with the message of `waitVerdict`, leaving the
buffers and the registry as they were, and runs to its end when there is no
such message. -/
theorem waitLoop_verdict (os : OS W) (l : List backgroundCmd) :
    ∀ (ts : Script W) (so se : List String),
      (∀ m, waitVerdict os ts.world l = some m →
        ∃ ts1, waitLoop os ts so se l = .abort (.fatal m) ts1 ∧ ts1.stdout = ts.stdout ∧
          ts1.stderr = ts.stderr ∧ ts1.background = ts.background) ∧
      (waitVerdict os ts.world l = none → ∃ ts1, waitLoop os ts so se l = .done ts1) := by
  induction l with
  | nil =>
    intro ts so se
    exact ⟨fun m h => by simp [waitVerdict] at h, fun _ => ⟨_, rfl⟩⟩
  | cons bg rest ih =>
    intro ts so se
    obtain ⟨hw, h1, h2, h3, _⟩ := joinLogged_fields os ts bg
    have ih1 := ih (joinLogged os ts bg)
      (if (os.wait ts.world bg.cmd).2.stdout ≠ "" then
        so ++ [(os.wait ts.world bg.cmd).2.stdout] else so)
      (if (os.wait ts.world bg.cmd).2.stderr ≠ "" then
        se ++ [(os.wait ts.world bg.cmd).2.stderr] else se)
    rw [hw, h1, h2, h3] at ih1
    rw [waitLoop_cons]
    unfold waitVerdict contradictsFlag verdictMessage
    dsimp only
    by_cases hs : (os.wait ts.world bg.cmd).2.success = true
    · by_cases hn : bg.neg > 0
      · simp only [hs, hn, if_true, decide_True, Bool.and_self, Bool.true_or, Bool.or_true,
          Bool.not_true, Bool.false_and, Bool.or_false]
        exact ⟨fun m h => ⟨_, by simp at h; rw [← h], h1, h2, h3⟩, fun h => by simp at h⟩
      · have hn0 : ¬ bg.neg = 0 ∨ True := Or.inr trivial
        simp only [hs, hn, if_true, if_false, decide_False, Bool.and_false, Bool.not_true,
          Bool.false_and, Bool.or_false, Bool.false_eq_true]
        exact ih1
    · have hs' : (os.wait ts.world bg.cmd).2.success = false := by simpa using hs
      by_cases he : os.expired (os.wait ts.world bg.cmd).1 = true
      · simp only [hs', he, if_true, Bool.false_and, Bool.not_false, Bool.true_and,
          Bool.or_true, Bool.false_or, Bool.false_eq_true, if_false]
        exact ⟨fun m h => ⟨_, by simp at h; rw [← h], h1, h2, h3⟩, fun h => by simp at h⟩
      · have he' : os.expired (os.wait ts.world bg.cmd).1 = false := by simpa using he
        by_cases hn : bg.neg = 0
        · simp only [hs', he', hn, if_true, Bool.false_and, Bool.not_false, Bool.true_and,
            decide_True, Bool.or_false, Bool.false_or, Bool.false_eq_true, if_false]
          exact ⟨fun m h => ⟨_, by simp at h; rw [← h], h1, h2, h3⟩, fun h => by simp at h⟩
        · simp only [hs', he', hn, Bool.false_and, Bool.not_false, Bool.true_and,
            decide_False, Bool.or_false, Bool.false_eq_true, if_false]
          exact ih1

/-- There is a verdict exactly when some task of the list, joined after the
tasks before it, contradicts its flag. -/
theorem waitVerdict_isSome_iff (os : OS W) (l : List backgroundCmd) :
    ∀ w : W, (waitVerdict os w l).isSome = true ↔
      ∃ pre bg post, l = pre ++ bg :: post ∧ contradictsFlag os (joinWorld os w pre) bg = true := by
  induction l with
  | nil =>
    intro w
    simp [waitVerdict]
  | cons b rest ih =>
    intro w
    unfold waitVerdict
    by_cases hc : contradictsFlag os w b = true
    · rw [if_pos hc]
      exact ⟨fun _ => ⟨[], b, rest, rfl, hc⟩, fun _ => rfl⟩
    · rw [if_neg hc, ih]
      constructor
      · rintro ⟨pre, bg, post, hl, hb⟩
        exact ⟨b :: pre, bg, post, by rw [hl]; rfl, hb⟩
      · rintro ⟨pre, bg, post, hl, hb⟩
        cases pre with
        | nil =>
          simp only [List.nil_append, List.cons.injEq] at hl
          obtain ⟨h1, _⟩ := hl
          subst h1
          exact absurd hb hc
        | cons p pre1 =>
          simp only [List.cons_append, List.cons.injEq] at hl
          obtain ⟨h1, h2⟩ := hl
          subst h1
          exact ⟨pre1, bg, post, h2, hb⟩

/-- The verdict is the message of the first task that contradicts its flag. -/
theorem waitVerdict_first (os : OS W) (pre : List backgroundCmd) :
    ∀ (w : W) (bg : backgroundCmd) (post : List backgroundCmd),
      (∀ p1 b p2, pre = p1 ++ b :: p2 → contradictsFlag os (joinWorld os w p1) b = false) →
      contradictsFlag os (joinWorld os w pre) bg = true →
      waitVerdict os w (pre ++ bg :: post) = some (verdictMessage os (joinWorld os w pre) bg) := by
  induction pre with
  | nil =>
    intro w bg post _ hb
    simp only [joinWorld] at hb
    simp [waitVerdict, hb, joinWorld]
  | cons p pre1 ih =>
    intro w bg post hpre hb
    have hp : contradictsFlag os w p = false := hpre [] p pre1 rfl
    simp only [List.cons_append, waitVerdict, hp, Bool.false_eq_true, if_false]
    exact ih (os.wait w p.cmd).1 bg post
      (fun p1 b p2 h => hpre (p :: p1) b p2 (by rw [h]; rfl)) hb

/-- C21: `wait` with `neg = 0` and no arguments fails fatally if and only if
some registered task, joined after the tasks registered before it, has an
outcome that contradicts the negation flag recorded for it (succeeded with
`neg > 0`, failed with `neg = 0`, or failed while the deadline has expired).
When it fails, the first such task in registration order decides the message,
and stdout, stderr and the registry are as they were before `wait`. -/
theorem cmdWait_fails_iff (os : OS W) (ts : Script W) :
    ((cmdWait os ts 0 []).fails = true ↔
      ∃ pre bg post, ts.background = pre ++ bg :: post ∧
        contradictsFlag os (joinWorld os ts.world pre) bg = true) ∧
    (∀ pre bg post, ts.background = pre ++ bg :: post →
      (∀ p1 b p2, pre = p1 ++ b :: p2 →
        contradictsFlag os (joinWorld os ts.world p1) b = false) →
      contradictsFlag os (joinWorld os ts.world pre) bg = true →
      ∃ ts1, cmdWait os ts 0 []
          = .abort (.fatal (verdictMessage os (joinWorld os ts.world pre) bg)) ts1 ∧
        ts1.stdout = ts.stdout ∧ ts1.stderr = ts.stderr ∧ ts1.background = ts.background) := by
  have hcmd : cmdWait os ts 0 [] = waitLoop os ts [] [] ts.background := by simp [cmdWait]
  obtain ⟨hsome, hnone⟩ := waitLoop_verdict os ts.background ts [] []
  refine ⟨?_, ?_⟩
  · rw [← waitVerdict_isSome_iff, hcmd]
    rcases hv : waitVerdict os ts.world ts.background with _ | m
    · obtain ⟨ts1, h1⟩ := hnone hv
      simp [h1, Outcome.fails]
    · obtain ⟨ts1, h1, _⟩ := hsome m hv
      simp [h1, Outcome.fails]
  · intro pre bg post hl hpre hb
    rw [hcmd]
    have hv := waitVerdict_first os pre ts.world bg post hpre hb
    rw [← hl] at hv
    exact hsome _ hv

/-- Witness for C21: `wait` on `echo a &`, `false &`, `! true &` in the concrete
system fails on the second task and leaves stdout as it was. -/
theorem cmdWait_fails_iff_witness :
    (toyMixed.background = [backgroundCmd.mk (Cmd.mk 1 "echo" ["a"]) 0]
        ++ backgroundCmd.mk (Cmd.mk 2 "false" []) 0 :: [backgroundCmd.mk (Cmd.mk 3 "true" []) 1] ∧
      contradictsFlag toyOS
        (joinWorld toyOS toyMixed.world [backgroundCmd.mk (Cmd.mk 1 "echo" ["a"]) 0])
        (backgroundCmd.mk (Cmd.mk 2 "false" []) 0) = true) ∧
    (cmdWait toyOS toyMixed 0 []).fails = true ∧
    (cmdWait toyOS toyMixed 0 []).state.stdout = "before" :=
  ⟨⟨rfl, by decide⟩,
    (cmdWait_fails_iff toyOS toyMixed).1.mpr
      ⟨[backgroundCmd.mk (Cmd.mk 1 "echo" ["a"]) 0], backgroundCmd.mk (Cmd.mk 2 "false" []) 0,
        [backgroundCmd.mk (Cmd.mk 3 "true" []) 1], rfl, by decide⟩,
    by decide⟩

/-! ## Negated grep and sed that complete -/

/-- A negated `scriptMatch` that completes had no count flag. -/
theorem scriptMatch_negated_done (os : OS W) (ts ts1 : Script W) (neg : Int) (args : List String)
    (text name : String) (hneg : 0 < neg)
    (hdone : scriptMatch os ts neg args text name = .done ts1) :
    scriptMatchPattern os ts neg 0 args text name = .done ts1 := by
  have hn : neg ≠ 0 := by omega
  unfold scriptMatch at hdone
  dsimp only at hdone
  by_cases hc : hasCountFlag args = true
  · rw [if_pos ⟨hc, hn⟩] at hdone
    cases hdone
  · have hc' : hasCountFlag args = false := by simpa using hc
    simp only [hc', Bool.false_eq_true, false_and, if_false] at hdone
    exact hdone

/-- When `scriptMatchPattern` completes, the argument count was right, the
pattern compiled, the source resolved and the assertion completed. -/
theorem scriptMatchPattern_done (os : OS W) (ts ts1 : Script W) (neg n : Int)
    (args : List String) (text name : String)
    (hdone : scriptMatchPattern os ts neg n args text name = .done ts1) :
    args.length = wantArgs name ∧
    ∃ pattern re text1 name1 replace, os.Compile ("(?m)" ++ pattern) = .ok re ∧
      scriptMatchSource os ts name args text name = .ok (text1, name1, replace) ∧
      scriptMatchAssert ts neg n name pattern re text1 name1 replace = .done ts1 := by
  unfold scriptMatchPattern at hdone
  dsimp only at hdone
  by_cases hlen : args.length ≠
      (if name = "sed" then 3 else if name = "regexp" ∨ name = "grep" then 2 else 1)
  · rw [if_pos hlen] at hdone
    cases hdone
  · rw [if_neg hlen] at hdone
    refine ⟨by simpa [wantArgs] using hlen, ?_⟩
    rcases hr : (if args.headD "" = "stdout" then (Except.ok ts.stdout : Except Abort String)
        else if args.headD "" = "stderr" then .ok ts.stderr
        else atFile os ts (args.headD "")) with why | pattern
    · rw [hr] at hdone
      cases hdone
    · rw [hr] at hdone
      dsimp only at hdone
      rcases hc : os.Compile ("(?m)" ++ pattern) with err | re
      · rw [hc] at hdone
        cases hdone
      · rw [hc] at hdone
        dsimp only at hdone
        rcases hs : scriptMatchSource os ts name args text name with why | ⟨text1, name1, replace⟩
        · rw [hs] at hdone
          cases hdone
        · rw [hs] at hdone
          exact ⟨pattern, re, text1, name1, replace, hc, rfl, hdone⟩

/-- The last stage of a negated `grep` completes only without a match, and
then stores the empty string in stdout. -/
theorem scriptMatchAssert_grep_done (ts ts1 : Script W) (neg : Int) (pattern : String)
    (re : Regexp) (text name replace : String) (hneg : 0 < neg)
    (hdone : scriptMatchAssert ts neg 0 "grep" pattern re text name replace = .done ts1) :
    re.MatchString text = false ∧ ts1 = { ts with stdout := "" } := by
  unfold scriptMatchAssert at hdone
  by_cases hm : re.MatchString text = true
  · simp [hneg, hm] at hdone
  · have hm' : re.MatchString text = false := by simpa using hm
    have hz : re.findAll text = [] := by simpa [Regexp.MatchString] using hm
    refine ⟨hm', ?_⟩
    simp [hneg, hm', Regexp.FindAllString, hz] at hdone
    rw [← hdone]
    rfl

/-- The last stage of a negated `sed` completes only without a match, and then
stores the result of `ReplaceAllString` in stdout. -/
theorem scriptMatchAssert_sed_done (ts ts1 : Script W) (neg n : Int) (pattern : String)
    (re : Regexp) (text name replace : String) (hneg : 0 < neg)
    (hdone : scriptMatchAssert ts neg n "sed" pattern re text name replace = .done ts1) :
    re.MatchString text = false ∧ ts1 = { ts with stdout := re.ReplaceAllString text replace } := by
  unfold scriptMatchAssert at hdone
  by_cases hm : re.MatchString text = true
  · simp [hneg, hm] at hdone
  · have hm' : re.MatchString text = false := by simpa using hm
    refine ⟨hm', ?_⟩
    simp [hneg, hm'] at hdone
    rw [← hdone]

/-- The text `sed` operates on is `sedText` of its second and third arguments. -/
theorem scriptMatchSource_sed (os : OS W) (ts : Script W) (args : List String)
    (text1 name1 replace : String)
    (hs : scriptMatchSource os ts "sed" args "" "sed" = .ok (text1, name1, replace)) :
    text1 = sedText ts (args.getD 1 "") (args.getD 2 "") := by
  unfold scriptMatchSource at hs
  simp only [show ¬ ("sed" = "regexp" ∨ "sed" = "grep") by decide, if_false, if_true] at hs
  unfold sedText
  rcases hr1 : atFile os ts (args.getD 1 "") with w1 | v1 <;>
  rcases hr2 : atFile os ts (args.getD 2 "") with w2 | v2 <;>
  simp only [hr1, hr2] at hs <;> split_ifs at hs <;> simp at hs <;> split_ifs <;>
  exact hs.1.symm

/-- C22: whenever a negated `grep` (`neg > 0`) completes, the stdout capture
afterwards is the empty string, nothing else has changed, and the pattern has
no match in the source text. -/
theorem cmdGrep_negated_leaves_empty (os : OS W) (ts ts1 : Script W) (neg : Int)
    (args : List String) (hneg : 0 < neg) (hdone : cmdGrep os ts neg args = .done ts1) :
    ts1.stdout = "" ∧ ts1 = { ts with stdout := "" } ∧
    ∃ pattern re text name, os.Compile ("(?m)" ++ pattern) = .ok re ∧
      scriptMatchSource os ts "grep" args "" "grep" = .ok (text, name, "") ∧
      re.MatchString text = false := by
  have h1 := scriptMatch_negated_done os ts ts1 neg args "" "grep" hneg hdone
  obtain ⟨_, pattern, re, text1, name1, replace, hc, hs, ha⟩ :=
    scriptMatchPattern_done os ts ts1 neg 0 args "" "grep" h1
  obtain ⟨hm, hts⟩ := scriptMatchAssert_grep_done ts ts1 neg pattern re text1 name1 replace hneg ha
  have hrep : replace = "" := by
    unfold scriptMatchSource at hs
    simp only [show ¬ ("grep" = "sed") by decide, if_false] at hs
    split at hs
    · cases hs
    · rename_i heq
      simp only [Except.ok.injEq, Prod.mk.injEq] at hs
      exact hs.2.2.symm
  subst hrep
  exact ⟨by rw [hts], hts, pattern, re, text1, name1, hc, hs, hm⟩

/-- Witness for C22: `! grep x stdout` with `abab` in stdout, in the concrete
system. -/
theorem cmdGrep_negated_leaves_empty_witness :
    (0 : Int) < 1 ∧ cmdGrep toyOS (toyWith "abab") 1 ["x", "stdout"] = .done (toyWith "") ∧
    (toyWith "").stdout = "" :=
  ⟨by decide, by decide,
    (cmdGrep_negated_leaves_empty toyOS (toyWith "abab") (toyWith "") 1 ["x", "stdout"]
      (by decide) (by decide)).1⟩

/-- C23, counterexample: with `abab` in stdout, `! sed x y $WORK/stdout`
completes and leaves `abab` in stdout: the source token `$WORK/stdout`, which
is neither `stdout` nor `stderr`, selects the stdout capture as the text, not
the empty string. -/
theorem cmdSed_work_token_is_a_buffer :
    cmdSed toyOS (toyWith "abab") 1 ["x", "y", "$WORK/stdout"] = .done (toyWith "abab") ∧
    (toyWith "abab").stdout ≠ "" := by
  decide

/-- C23, amended: whenever a negated `sed` (`neg > 0`) completes, it had three
arguments, the pattern has no match in the text it operated on, and stdout
afterwards is `ReplaceAllString` of that text, nothing else being changed;
the text is the capture buffer named by the source token, else the one named
by the replacement token (`stdout`, `stderr`, also with `$WORK/` in front),
else the empty string. When `ReplaceAllString` returns a text without a match
unchanged, as Go does, stdout afterwards is that text, unmodified. -/
theorem cmdSed_negated_no_change (os : OS W) (ts ts1 : Script W) (neg : Int)
    (args : List String) (hneg : 0 < neg) (hdone : cmdSed os ts neg args = .done ts1) :
    ∃ p r src, args = [p, r, src] ∧
      (∃ pattern re replace, os.Compile ("(?m)" ++ pattern) = .ok re ∧
        re.MatchString (sedText ts r src) = false ∧
        ts1 = { ts with stdout := re.ReplaceAllString (sedText ts r src) replace }) ∧
      ((∀ expr re, os.Compile expr = .ok re →
          ∀ text repl, re.findAll text = [] → re.replaceAll text repl = text) →
        ts1 = { ts with stdout := sedText ts r src }) := by
  have h1 := scriptMatch_negated_done os ts ts1 neg args "" "sed" hneg hdone
  obtain ⟨hlen, pattern, re, text1, name1, replace, hc, hs, ha⟩ :=
    scriptMatchPattern_done os ts ts1 neg 0 args "" "sed" h1
  obtain ⟨hm, hts⟩ := scriptMatchAssert_sed_done ts ts1 neg 0 pattern re text1 name1 replace hneg ha
  have ht := scriptMatchSource_sed os ts args text1 name1 replace hs
  match args, hlen with
  | [p, r, src], _ =>
    have ht2 : text1 = sedText ts r src := ht
    subst ht2
    refine ⟨p, r, src, rfl, ⟨pattern, re, replace, hc, hm, hts⟩, ?_⟩
    intro hlib
    have hz : re.findAll (sedText ts r src) = [] := by simpa [Regexp.MatchString] using hm
    rw [hts]
    show ({ ts with stdout := re.replaceAll (sedText ts r src) replace } : Script W) = _
    rw [hlib _ re hc _ _ hz]

/-- Replacing in a text where the literal does not occur changes nothing. -/
theorem litReplace_noMatch (p r : List Char) :
    ∀ cs : List Char, litScan p 0 cs = [] → litReplace p r 0 cs = cs := by
  intro cs
  induction cs with
  | nil => intro _; rfl
  | cons c cs ih =>
    intro h
    by_cases hp : p.isPrefixOf (c :: cs) = true
    · simp [litScan, hp] at h
    · simp only [litScan, hp, Bool.false_eq_true, if_false] at h
      simp only [litReplace, hp, Bool.false_eq_true, if_false, ih h]

/-- The expressions of the concrete system return a text without a match
unchanged. -/
theorem toyOS_replace_law (expr : String) (re : Regexp) (hc : toyOS.Compile expr = .ok re)
    (text repl : String) (hz : re.findAll text = []) : re.replaceAll text repl = text := by
  have hc' : litCompile expr = .ok re := hc
  unfold litCompile at hc'
  dsimp only at hc'
  split_ifs at hc' with h1 h2 h3
  simp only [Except.ok.injEq] at hc'
  subst hc'
  by_cases hp : expr.data.drop 4 = []
  · simp [litRegexp, hp] at hz
  · simp only [litRegexp, hp, if_false] at hz ⊢
    rw [litReplace_noMatch _ _ _ hz]

/-- Witness for C23: `! sed x stdout k` with `abab` in stdout, in the concrete
system. -/
theorem cmdSed_negated_no_change_witness :
    ((0 : Int) < 1 ∧ cmdSed toyOS (toyWith "abab") 1 ["x", "stdout", "k"] = .done (toyWith "abab")) ∧
    toyWith "abab" = { toyWith "abab" with stdout := sedText (toyWith "abab") "stdout" "k" } := by
  refine ⟨⟨by decide, by decide⟩, ?_⟩
  obtain ⟨p, r, src, ha, _, h⟩ := cmdSed_negated_no_change toyOS (toyWith "abab") (toyWith "abab") 1
    ["x", "stdout", "k"] (by decide) (by decide)
  simp only [List.cons.injEq, and_true] at ha
  obtain ⟨_, h2, h3⟩ := ha
  subst h2 h3
  exact h toyOS_replace_law

/-! ## Empty tokens -/

/-- C24: with the required number of arguments, an empty pattern token stops
each of `stdout`, `stderr`, `regexp`, `grep` and `sed` in a runtime panic
(index out of range), and so do an empty replacement token and an empty
source token of `sed`. -/
theorem scriptMatch_empty_token_panics :
    cmdStdout toyOS toyScript 0 [""]
      = .abort (.panic "index out of range [0] with length 0") toyScript ∧
    cmdStderr toyOS toyScript 1 [""]
      = .abort (.panic "index out of range [0] with length 0") toyScript ∧
    cmdRegexp toyOS toyScript 0 ["", "golden"]
      = .abort (.panic "index out of range [0] with length 0") toyScript ∧
    cmdGrep toyOS toyScript 1 ["", "stdout"]
      = .abort (.panic "index out of range [0] with length 0") toyScript ∧
    cmdSed toyOS toyScript 1 ["", "y", "stdout"]
      = .abort (.panic "index out of range [0] with length 0") toyScript ∧
    cmdSed toyOS toyScript 1 ["x", "", "stdout"]
      = .abort (.panic "index out of range [0] with length 0") toyScript ∧
    cmdSed toyOS toyScript 1 ["x", "y", ""]
      = .abort (.panic "index out of range [0] with length 0") toyScript := by
  decide

/-! ## chmod: the range of the mode -/

/-- C25: the mode string `-1` parses as the octal integer -1, passes the test
`mode > 0777`, and `cmdChmod` calls `os.Chmod` with `os.FileMode(-1)`, which
is 4294967295, outside 0..0777; the handler then returns or fails on the
result of that call. -/
theorem cmdChmod_negative_mode (os : OS W) (ts : Script W) (file : String) :
    ParseInt "ParseInt" "-1" 8 32 = .ok (-1) ∧ FileMode (-1) = 4294967295 ∧
    ¬ FileMode (-1) ≤ 0o777 ∧
    cmdChmod os ts 0 ["-1", file] =
      match (os.Chmod ts.world (ts.MkAbs os file) 4294967295).2 with
      | some err =>
        .abort (.fatal ("unexpected chmod failure: " ++ err))
          { ts with world := (os.Chmod ts.world (ts.MkAbs os file) 4294967295).1 }
      | none => .done { ts with world := (os.Chmod ts.world (ts.MkAbs os file) 4294967295).1 } := by
  have hp : ParseInt "ParseInt" "-1" 8 32 = .ok (-1) := by rfl
  have hm : FileMode (-1) = 4294967295 := by decide
  refine ⟨hp, hm, by rw [hm]; decide, ?_⟩
  simp only [cmdChmod, hp, hm]
  simp

/-- For a mode string that parses as a non-negative integer, `cmdChmod` either
stops before touching the file or passes a mode in 0..0777 to `os.Chmod`. -/
theorem cmdChmod_mode_range (os : OS W) (ts : Script W) (neg : Int) (m file : String)
    (mode : Int) (hp : ParseInt "ParseInt" m 8 32 = .ok mode) (h0 : 0 ≤ mode) :
    cmdChmod os ts neg [m, file] = .abort (.fatal ("unsupported file mode " ++ octal3 mode)) ts ∨
    (FileMode mode ≤ 0o777 ∧
      (cmdChmod os ts neg [m, file]).state
        = { ts with world := (os.Chmod ts.world (ts.MkAbs os file) (FileMode mode)).1 }) := by
  by_cases hgt : mode > 0o777
  · left
    simp [cmdChmod, hp, hgt]
  · right
    have hle : mode ≤ 0o777 := by omega
    have hfm : FileMode mode = mode.toNat := by
      unfold FileMode
      rw [Int.emod_eq_of_lt h0 (by omega)]
    refine ⟨by rw [hfm]; omega, ?_⟩
    simp only [cmdChmod, hp, hgt, if_false]
    split_ifs
    · rfl
    · rfl
    · split <;> rfl

/-! ## The monitor of a background command and the control thread -/

/-- C14: under a schedule in which the monitor goroutine of the process just
launched runs to its end before the closing block of `cmdExec` reads `err`,
the line `exec false &` (launch succeeded, `neg = 0`, deadline not expired)
stops in `Fatalf` "unexpected exec command failure" instead of returning: the
goroutine has stored the exit code in status and the error of the failed
process in `err`. Under the schedule in which the monitor is still waiting the
same line returns. -/
theorem cmdExec_background_race :
    (toyFastOS.start toyScript.world (toyScript.req "false" [])).2.toOption
      = some (Cmd.mk 1 "false" []) ∧
    toyFastOS.monitorProgress (toyFastOS.start toyScript.world (toyScript.req "false" [])).1
      (Cmd.mk 1 "false" []) = .finished 1 (some "exit status 1") ∧
    toyFastOS.expired (toyFastOS.start toyScript.world (toyScript.req "false" [])).1 = false ∧
    cmdExec toyFastOS toyScript 0 ["false", "&"]
      = .abort (.fatal "unexpected exec command failure")
          { toyScript with
            world := (toyFastOS.start toyScript.world (toyScript.req "false" [])).1
            background := [backgroundCmd.mk (Cmd.mk 1 "false" []) 0]
            status := 1
            log := "[exit status 1]\n" } ∧
    (cmdExec toyOS toyScript 0 ["false", "&"]).completes = true := by
  decide

/-- Completions of monitors change nothing that a later process launch reads,
and leave in status the exit code of the last one. -/
theorem afterMonitors_fields (ts : Script W) (codes : List Int) :
    (afterMonitors ts codes).world = ts.world ∧
    (∀ prog rest, (afterMonitors ts codes).req prog rest = ts.req prog rest) ∧
    (afterMonitors ts codes).status = (codes.getLast?).getD ts.status := by
  induction codes generalizing ts with
  | nil => simp [afterMonitors]
  | cons c cs ih =>
    have h := ih (monitorComplete ts c)
    simp only [afterMonitors, List.foldl_cons] at h ⊢
    refine ⟨h.1, fun prog rest => (h.2.1 prog rest).trans rfl, ?_⟩
    rw [h.2.2]
    cases cs with
    | nil => simp [monitorComplete]
    | cons d ds =>
      rw [List.getLast?_cons_cons]
      rcases hl : (d :: ds).getLast? with _ | x
      · exact absurd hl (by simp)
      · rfl

/-- C2, counterexample: the synchronous `exec true` returns with exit code 0,
and the completion step of the monitor of a background `false` (exit code 1)
that comes after it leaves status 1, so that a following `status 0` stops. -/
theorem cmdExec_status_overwritten :
    ["true"].getLast? ≠ some "&" ∧
    (toyOS.run toyMixed.world (toyMixed.req "true" [])).2.exitCode = 0 ∧
    (cmdExec toyOS toyMixed 0 ["true"]).completes = true ∧
    (monitorComplete (cmdExec toyOS toyMixed 0 ["true"]).state 1).status = 1 ∧
    (cmdStatus (monitorComplete (cmdExec toyOS toyMixed 0 ["true"]).state 1) 0 ["0"]).fails
      = true := by
  decide

/-- C2, amended: around a synchronous `exec` (last argument not `&`), with
monitors of background commands completing before the handler runs and after
the process has been run, the status field is the exit code of the process
that was run when no monitor completes after it, and otherwise the exit code
stored by the monitor that completed last; completions before the handler do
not show. -/
theorem cmdExec_sync_status_monitors (os : OS W) (ts : Script W) (neg : Int) (prog : String)
    (rest : List String) (before after : List Int)
    (hsync : (prog :: rest).getLast? ≠ some "&") :
    (afterMonitors (cmdExec os (afterMonitors ts before) neg (prog :: rest)).state after).status
      = (after.getLast?).getD (os.run ts.world (ts.req prog rest)).2.exitCode := by
  rw [(afterMonitors_fields _ after).2.2, cmdExec_sync_status_handler os _ neg prog rest hsync,
    (afterMonitors_fields ts before).1, (afterMonitors_fields ts before).2.1]

/-- Witness for C2: `exec true` in the concrete system, after the completion
of a monitor with exit code 3: status is 0 when no monitor completes
afterwards, and 1 when monitors with exit codes 0 and 1 do. -/
theorem cmdExec_sync_status_monitors_witness :
    ["true"].getLast? ≠ some "&" ∧
    (afterMonitors (cmdExec toyOS (afterMonitors toyMixed [3]) 0 ["true"]).state []).status = 0 ∧
    (afterMonitors (cmdExec toyOS (afterMonitors toyMixed [3]) 0 ["true"]).state [0, 1]).status
      = 1 :=
  ⟨by decide, cmdExec_sync_status_monitors toyOS toyMixed 0 "true" [] [3] [] (by decide),
    cmdExec_sync_status_monitors toyOS toyMixed 0 "true" [] [3] [0, 1] (by decide)⟩

/-! ## Unnegated `grep` and `sed`, stage by stage -/

/-- Under `neg = 0`, `grep` and `sed` stop at the first stage of
`scriptMatchPattern` that fails, and in the status-checking `Fatalf` when
none does. -/
theorem scriptMatchPattern_unnegated_stages (os : OS W) (ts : Script W) (n : Int)
    (rest : List String) (name : String) (hname : name = "grep" ∨ name = "sed") :
    (rest.length ≠ wantArgs name →
      scriptMatchPattern os ts 0 n rest "" name
        = .abort (.fatal ("usage: " ++ name ++ " [-count=N] 'pattern'"
            ++ (if name = "sed" then " replace file" else " file"))) ts) ∧
    (rest.length = wantArgs name → rest.headD "" ≠ "" →
      (∀ e, specResolve os ts (rest.headD "") = .error e →
        scriptMatchPattern os ts 0 n rest "" name = .abort (.check e) ts) ∧
      (∀ pattern, specResolve os ts (rest.headD "") = .ok pattern →
        (∀ e, os.Compile ("(?m)" ++ pattern) = .error e →
          scriptMatchPattern os ts 0 n rest "" name = .abort (.check e) ts) ∧
        (∀ re, os.Compile ("(?m)" ++ pattern) = .ok re →
          (∀ why, scriptMatchSource os ts name rest "" name = .error why →
            scriptMatchPattern os ts 0 n rest "" name = .abort why ts) ∧
          (∀ text1 name1 replace,
            scriptMatchSource os ts name rest "" name = .ok (text1, name1, replace) →
            scriptMatchPattern os ts 0 n rest "" name
              = .abort (.fatal (name1 ++ " does not support status checking")) ts)))) := by
  have hw : wantArgs name = (if name = "sed" then 3 else if name = "regexp" ∨ name = "grep"
      then 2 else 1) := rfl
  have hx : (if name = "sed" then " replace file"
      else if name = "regexp" ∨ name = "grep" then " file" else "")
      = (if name = "sed" then " replace file" else " file") := by
    rcases hname with h | h <;> simp [h]
  refine ⟨?_, ?_⟩
  · intro hlen
    unfold scriptMatchPattern
    dsimp only
    rw [if_pos (by rw [← hw]; exact hlen), hx]
  · intro hlen hne
    have hstep : scriptMatchPattern os ts 0 n rest "" name =
        match (match specResolve os ts (rest.headD "") with
          | .ok p => (Except.ok p : Except Abort String)
          | .error e => .error (.check e)) with
        | .error why => .abort why ts
        | .ok pattern =>
          match os.Compile ("(?m)" ++ pattern) with
          | .error err => .abort (.check err) ts
          | .ok re =>
            match scriptMatchSource os ts name rest "" name with
            | .error why => .abort why ts
            | .ok (text1, name1, replace) =>
              scriptMatchAssert ts 0 n name pattern re text1 name1 replace := by
      unfold scriptMatchPattern
      dsimp only
      rw [if_neg (by rw [← hw]; exact fun h => h hlen), atFile_eq_spec os ts _ hne]
    refine ⟨?_, ?_⟩
    · intro e he
      rw [hstep, he]
    · intro pattern hp
      refine ⟨?_, ?_⟩
      · intro e he
        rw [hstep, hp]
        simp only [he]
      · intro re hre
        refine ⟨?_, ?_⟩
        · intro why hs
          rw [hstep, hp]
          simp only [hre, hs]
        · intro text1 name1 replace hs
          rw [hstep, hp]
          simp only [hre, hs]
          exact scriptMatchAssert_unnegated ts n name pattern re text1 name1 replace hname

/-- The count-flag stage of `scriptMatch` under `neg = 0`. -/
theorem scriptMatch_unnegated_count (os : OS W) (ts : Script W) (args : List String)
    (text name : String) :
    (hasCountFlag args = false →
      scriptMatch os ts 0 args text name = scriptMatchPattern os ts 0 0 args text name) ∧
    (hasCountFlag args = true →
      (∀ err, Atoi (dropBytes (args.headD "") 7) = .error err →
        scriptMatch os ts 0 args text name = .abort (.fatal ("bad -count=: " ++ err)) ts) ∧
      (∀ n, Atoi (dropBytes (args.headD "") 7) = .ok n →
        (n < 1 → scriptMatch os ts 0 args text name
          = .abort (.fatal "bad -count=: must be at least 1") ts) ∧
        (1 ≤ n → scriptMatch os ts 0 args text name
          = scriptMatchPattern os ts 0 n args.tail text name))) := by
  refine ⟨?_, ?_⟩
  · intro hc
    simp [scriptMatch, hc]
  · intro hc
    refine ⟨?_, ?_⟩
    · intro err he
      unfold scriptMatch
      simp only [hc, he, ne_eq, not_true_eq_false, and_false, if_false, if_true]
    · intro n hn
      refine ⟨?_, ?_⟩
      · intro h1
        unfold scriptMatch
        simp only [hc, hn, h1, ne_eq, not_true_eq_false, and_false, and_self, if_false, if_true]
      · intro h1
        have h2 : ¬ n < 1 := by omega
        unfold scriptMatch
        simp only [hc, hn, h2, ne_eq, not_true_eq_false, and_false, if_false, if_true]

/-- C5, amended: for every argument list and state, `grep` and `sed` invoked
with `neg = 0` never complete and leave the state unchanged, and the stop is
the one of the first stage that fails, in the order of the code: a bad count
flag (usage), a wrong number of arguments (usage), the failed `Check` of the
read of an `@file` pattern, the failed `Check` of the compilation of the
pattern, the failure of the read of the source or replacement; when every
stage succeeds the stop is the `Fatalf` "<name> does not support status
checking". -/
theorem grep_sed_unnegated (os : OS W) (ts : Script W) (args : List String) (name : String)
    (out : Outcome W)
    (hout : (name = "grep" ∧ out = cmdGrep os ts 0 args) ∨
      (name = "sed" ∧ out = cmdSed os ts 0 args)) :
    (∃ why, out = .abort why ts ∧
      ((∀ a ∈ args, a ≠ "") → why.isUsage = true ∨ ∃ e, why = .check e)) ∧
    (hasCountFlag args = true →
      (∀ err, Atoi (dropBytes (args.headD "") 7) = .error err →
        out = .abort (.fatal ("bad -count=: " ++ err)) ts) ∧
      (∀ n, Atoi (dropBytes (args.headD "") 7) = .ok n → n < 1 →
        out = .abort (.fatal "bad -count=: must be at least 1") ts)) ∧
    (∀ rest,
      (hasCountFlag args = false ∧ rest = args) ∨
        (hasCountFlag args = true ∧ rest = args.tail ∧
          ∃ n, Atoi (dropBytes (args.headD "") 7) = .ok n ∧ 1 ≤ n) →
      (rest.length ≠ wantArgs name →
        out = .abort (.fatal ("usage: " ++ name ++ " [-count=N] 'pattern'"
          ++ (if name = "sed" then " replace file" else " file"))) ts) ∧
      (rest.length = wantArgs name → rest.headD "" ≠ "" →
        (∀ e, specResolve os ts (rest.headD "") = .error e → out = .abort (.check e) ts) ∧
        (∀ pattern, specResolve os ts (rest.headD "") = .ok pattern →
          (∀ e, os.Compile ("(?m)" ++ pattern) = .error e → out = .abort (.check e) ts) ∧
          (∀ re, os.Compile ("(?m)" ++ pattern) = .ok re →
            (∀ why, scriptMatchSource os ts name rest "" name = .error why →
              out = .abort why ts) ∧
            (∀ text1 name1 replace,
              scriptMatchSource os ts name rest "" name = .ok (text1, name1, replace) →
              out = .abort (.fatal (name1 ++ " does not support status checking")) ts))))) := by
  have hname : name = "grep" ∨ name = "sed" := hout.elim (fun h => Or.inl h.1) (fun h => Or.inr h.1)
  have hdef : out = scriptMatch os ts 0 args "" name := by
    rcases hout with ⟨h1, h2⟩ | ⟨h1, h2⟩
    · rw [h2, h1]; rfl
    · rw [h2, h1]; rfl
  have hcount := scriptMatch_unnegated_count os ts args "" name
  refine ⟨?_, ?_, ?_⟩
  · rw [hdef]
    exact scriptMatch_unnegated_extract os ts args name hname
  · intro hc
    refine ⟨?_, ?_⟩
    · intro err he
      rw [hdef]
      exact (hcount.2 hc).1 err he
    · intro n hn h1
      rw [hdef]
      exact ((hcount.2 hc).2 n hn).1 h1
  · intro rest hrest
    have hpat : ∃ n, out = scriptMatchPattern os ts 0 n rest "" name := by
      rcases hrest with ⟨hc, hr⟩ | ⟨hc, hr, n, hn, h1⟩
      · exact ⟨0, by rw [hdef, hr]; exact hcount.1 hc⟩
      · exact ⟨n, by rw [hdef, hr]; exact ((hcount.2 hc).2 n hn).2 h1⟩
    obtain ⟨n, hn⟩ := hpat
    rw [hn]
    exact scriptMatchPattern_unnegated_stages os ts n rest name hname

/-- Witness for C5: `grep a stdout` in the concrete system passes the count,
arity, pattern, compilation and source stages and stops in "grep does not
support status checking". -/
theorem grep_sed_unnegated_witness :
    (hasCountFlag ["a", "stdout"] = false ∧
      ["a", "stdout"].length = wantArgs "grep" ∧
      specResolve toyOS toyScript "a" = .ok "a" ∧
      (toyOS.Compile "(?m)a").toOption.isSome = true ∧
      scriptMatchSource toyOS toyScript "grep" ["a", "stdout"] "" "grep"
        = .ok (toyScript.stdout, "grep", "")) ∧
    cmdGrep toyOS toyScript 0 ["a", "stdout"]
      = .abort (.fatal "grep does not support status checking") toyScript := by
  refine ⟨⟨by decide, by decide, rfl, by decide, rfl⟩, ?_⟩
  rcases hre : toyOS.Compile "(?m)a" with e | re
  · have h : (toyOS.Compile "(?m)a").toOption.isSome = true := by decide
    rw [hre] at h
    exact absurd h Bool.false_ne_true
  · exact ((((grep_sed_unnegated toyOS toyScript ["a", "stdout"] "grep" _
      (Or.inl ⟨rfl, rfl⟩)).2.2 ["a", "stdout"] (Or.inl ⟨rfl, rfl⟩)).2 rfl (by decide)).2
        "a" rfl).2 re hre |>.2 toyScript.stdout "grep" "" rfl

end HofScript
